import Mathlib

/- Batteries marks the arithmetic on Rat irreducible, which would block the
elaborator-side evaluation performed by the decide tactic on the concrete
simulator runs below; restore the default reducibility inside this file. -/
attribute [local semireducible] Rat.mul Rat.add Rat.sub Rat.inv

/-!
Verification of the seyeon-oversight trading core
(crates/seyeon_trading_engine: engine.rs, indicators.rs).

Shallow embedding conventions:
* Rust f64 values are modelled as exact rationals; the one place where the
  engine genuinely produces IEEE specials (the RSI column, where polars
  divides by a possibly-zero rolling mean) uses the dedicated F64 type
  with posInf / negInf / nan constructors.  Square roots (rolling std,
  Pearson correlation) are modelled over the reals.
* Nullable polars column entries are Option values; reads that `.unwrap()` in
  the source become Option binds (so a panic is `none`), and reads that use
  `.unwrap_or(d)` become `Option.getD · d`.
* A polars DataFrame row of the final indicator frame is a `Row`; the
  datetime column (epoch milliseconds, always materialised by
  `Indicators::new`) is a plain integer.
* The source's `partial_sell` method and `TradeType::PartialSell` variant are
  named `profit_sell` / `profitSell` here.
-/

/-- TradeType from engine.rs (Buy, DcaBuy, PartialSell, FullSell, FinalSell);
the PartialSell variant is called profitSell here. -/
inductive TradeType where
  | buy
  | dcaBuy
  | profitSell
  | fullSell
  | finalSell
deriving DecidableEq

/-- Trade from engine.rs: an append-only audit record. -/
structure Trade where
  trade_type : TradeType
  datetime : ℤ
  price : ℚ
  amount : ℚ
deriving DecidableEq

/-- Position from engine.rs. -/
structure Position where
  avg_price : ℚ
  amount : ℚ
  investment : ℚ
  entry_time : ℤ
deriving DecidableEq

/-- Params from engine.rs. -/
structure Params where
  initial_capital : ℚ
  initial_investment_fraction : ℚ
  dca_buy_threshold : ℚ
  dca_buy_fraction : ℚ
  profit_sell_threshold : ℚ
  profit_sell_fraction : ℚ
  generic_fee : ℚ
  buy_threshold : ℕ
  sell_threshold : ℕ
deriving DecidableEq

/-- The Default impl for Params in engine.rs. -/
def Params.default : Params where
  initial_capital := 10000
  initial_investment_fraction := 35/100
  dca_buy_threshold := 10/100
  dca_buy_fraction := 75/100
  profit_sell_threshold := 20/100
  profit_sell_fraction := 40/100
  generic_fee := 5/1000
  buy_threshold := 3
  sell_threshold := 2

/-- One row of the final indicator DataFrame, as read by the engine.
Entries that can be null in polars are Options; `datetime` is the epoch-millis
integer column built by Indicators::new (never null). -/
structure Row where
  datetime : ℤ
  price : Option ℚ
  ma5 : Option ℚ
  ma25 : Option ℚ
  ma50 : Option ℚ
  ma111 : Option ℚ
  macd : Option ℚ
  signal : Option ℚ
  rsi : Option ℚ
  roc : Option ℚ
  lower_band : Option ℚ
  upper_band : Option ℚ
  vma20 : Option ℚ
  atr14 : Option ℚ
deriving DecidableEq

/-- The mutable portfolio fields of TradingEngine
(current_cash, held, trade_history, position). -/
structure SimState where
  current_cash : ℚ
  held : ℚ
  trade_history : List Trade
  position : Option Position
deriving DecidableEq

/-- Signal from engine.rs. -/
inductive Signal where
  | hold
  | buy
  | sell
  | dcaBuy
  | dcaSell
deriving DecidableEq

/-- Event from engine.rs. -/
structure Event where
  datetime : ℤ
  price : ℚ
  signal : Signal
deriving DecidableEq

/-- Summary from engine.rs. -/
structure Summary where
  initial_capital : ℚ
  final_portfolio_value : ℚ
  roi : ℚ
  num_trades : ℕ
  estimated_fees_paid : ℚ
deriving DecidableEq

/-- PortfolioSimulation from engine.rs. -/
structure PortfolioSimulation where
  symbol : String
  roi : ℚ
  final_value : ℚ
  num_trades : ℕ
deriving DecidableEq

/-- The pure score computation of TradingEngine::generate_signal, taking the
column values already read for row idx (after null fallbacks). Returns
(buy_signal, sell_signal). Scores are integers (they can go negative via the
fear-and-greed penalties). -/
def signal_scores (fgi : ℕ) (price ma5 ma25 ma50 ma111 macd signal_val rsi
    lower_band upper_band vma20 atr14 : ℚ) : Bool × Bool :=
  let volatility_ratio := atr14 / price
  let volatility_high := volatility_ratio > 3/100
  let strong_uptrend := ma5 > ma25 ∧ ma25 > ma50 ∧ ma50 > ma111
  let is_oversold := rsi < 30
  let is_overbought := rsi > 70
  let buy_score : ℤ :=
    (if price > ma5 then 5 else 0) +
    (if price > ma25 then 10 else 0) +
    (if ma5 > ma25 then 15 else 0) +
    (if macd > signal_val then 15 else 0) +
    (if macd > 0 then 10 else 0) +
    (if is_oversold then 20 else if rsi < 40 then 10 else 0) +
    (if price ≤ lower_band * (102/100) then 15
     else if price ≤ lower_band * (105/100) then 10 else 0) +
    (if vma20 > price * (9/10) then 10 else 0) +
    (if fgi < 25 then 15 else if fgi < 40 then 10
     else if fgi > 80 then -15 else if fgi > 65 then -10 else 0)
  let sell_score : ℤ :=
    (if price < ma5 then 5 else 0) +
    (if price < ma25 then 10 else 0) +
    (if ma5 < ma25 then 15 else 0) +
    (if macd < signal_val then 15 else 0) +
    (if macd < 0 then 10 else 0) +
    (if is_overbought then 20 else if rsi > 65 then 10 else 0) +
    (if price ≥ upper_band * (98/100) then 15
     else if price ≥ upper_band * (95/100) then 10 else 0) +
    (if vma20 < price then 10 else 0) +
    (if fgi > 80 then 15 else if fgi > 65 then 10
     else if fgi < 20 then -10 else 0)
  let buy_threshold : ℤ := if volatility_high then 70 else 60
  let sell_threshold : ℤ := if volatility_high then 65 else 70
  let adjusted_sell_threshold :=
    if strong_uptrend then sell_threshold + 10 else sell_threshold
  (decide (buy_score ≥ buy_threshold), decide (sell_score ≥ adjusted_sell_threshold))

/-- TradingEngine::generate_signal: reads row idx. price, ma25, ma50, ma5,
macd and signal are `.unwrap()`ed (a null is a panic, i.e. `none` here); the
remaining columns use `.unwrap_or` fallbacks. roc is read into an unused
binding in the source. -/
def generate_signal (fgi : ℕ) (r : Row) : Option (Bool × Bool) := do
  let price ← r.price
  let ma25 ← r.ma25
  let ma50 ← r.ma50
  let ma5 ← r.ma5
  let ma111 := r.ma111.getD (price * (9/10))
  let macd ← r.macd
  let signal_val ← r.signal
  let rsi := r.rsi.getD 50
  let _roc := r.roc.getD 0
  let lower_band := r.lower_band.getD (price * (9/10))
  let upper_band := r.upper_band.getD (price * (11/10))
  let vma20 := r.vma20.getD price
  let atr14 := r.atr14.getD (price * (1/20))
  pure (signal_scores fgi price ma5 ma25 ma50 ma111 macd signal_val rsi
    lower_band upper_band vma20 atr14)

/-- Body of TradingEngine::check_dca_buy_opportunity once the price column has
been read (its only `.unwrap()`); every other column read uses `.unwrap_or`. -/
def check_dca_buy_core (P : Params) (fgi : ℕ) (s : SimState) (r : Row)
    (price : ℚ) : Bool :=
  match s.position with
  | none => false
  | some pos =>
    let rsi := r.rsi.getD 50
    let lower_band := r.lower_band.getD (price * (9/10))
    let macd := r.macd.getD 0
    let signal_val := r.signal.getD 0
    let ma25 := r.ma25.getD price
    let ma50 := r.ma50.getD price
    let atr14 := r.atr14.getD (price * (1/20))
    let price_below_avg := price < pos.avg_price * (1 - P.dca_buy_threshold)
    let price_near_lower_band := price ≤ lower_band * (103/100)
    let macd_bullish := macd > signal_val ∨
      (macd < 0 ∧ macd > |macd| * (-(3/10)) ∧ macd > signal_val)
    let near_support :=
      (price ≤ ma25 * (102/100) ∧ price ≥ ma25 * (98/100)) ∨
      (price ≤ ma50 * (102/100) ∧ price ≥ ma50 * (98/100))
    let volatility_ratio := atr14 / price
    let volatility_high := volatility_ratio > 3/100
    let has_enough_cash := s.current_cash ≥ 200
    let dca_buy_count :=
      (s.trade_history.filter (fun t => t.trade_type == TradeType.dcaBuy)).length
    let dca_limit_reached := dca_buy_count ≥ 3
    let extreme_fear := fgi < 20
    let dca_score : ℤ :=
      (if price < pos.avg_price * (85/100) then 40
       else if price < pos.avg_price * (90/100) then 30
       else if price < pos.avg_price * (92/100) then 20
       else if price_below_avg then 10 else 0) +
      (if rsi < 25 then 20 else if rsi < 30 then 15
       else if rsi < 35 then 10 else 0) +
      (if price_near_lower_band then 15 else 0) +
      (if macd_bullish then 10 else 0) +
      (if near_support then 5 else 0) +
      (if extreme_fear then 10 else 0) +
      (if volatility_high then 5 else 0) -
      (if dca_limit_reached then 30 else 0)
    decide (dca_score ≥ 60) && decide has_enough_cash

/-- TradingEngine::check_dca_buy_opportunity (price is `.unwrap()`ed). -/
def check_dca_buy_opportunity (P : Params) (fgi : ℕ) (s : SimState) (r : Row) :
    Option Bool :=
  r.price.map (check_dca_buy_core P fgi s r)

/-- Body of TradingEngine::check_dca_sell_opportunity once the price column has
been read (its only `.unwrap()`). -/
def check_dca_sell_core (P : Params) (fgi : ℕ) (s : SimState) (r : Row)
    (price : ℚ) : Bool :=
  match s.position with
  | none => false
  | some pos =>
    let rsi := r.rsi.getD 50
    let upper_band := r.upper_band.getD (price * (11/10))
    let macd := r.macd.getD 0
    let signal_val := r.signal.getD 0
    let ma5 := r.ma5.getD price
    let ma25 := r.ma25.getD price
    let vma20 := r.vma20.getD price
    if price ≤ pos.avg_price then false
    else
      let profit_percentage := (price / pos.avg_price - 1) * 100
      let macd_bearish := macd < signal_val ∧ macd > 0
      let price_near_upper_band := price ≥ upper_band * (95/100)
      let ma_turning_down := ma5 < ma5 * (1005/1000) ∧ ma5 > ma25
      let volume_confirmation := vma20 > price
      let extreme_greed := fgi > 75
      let sell_score : ℤ :=
        (if profit_percentage > 25 then 40
         else if profit_percentage > 20 then 30
         else if profit_percentage > 15 then 20
         else if profit_percentage > P.profit_sell_threshold * 100 then 15 else 0) +
        (if rsi > 80 then 25 else if rsi > 75 then 20
         else if rsi > 70 then 15 else if rsi > 65 then 10 else 0) +
        (if price_near_upper_band then 15 else 0) +
        (if macd_bearish then 10 else 0) +
        (if ma_turning_down then 5 else 0) +
        (if extreme_greed then 5 else 0) +
        (if ¬ volume_confirmation then 5 else 0)
      let dca_sell_count :=
        (s.trade_history.filter (fun t => t.trade_type == TradeType.profitSell)).length
      let base_threshold : ℤ := 65
      let adjusted_threshold :=
        if profit_percentage > 25 then base_threshold - 10
        else if dca_sell_count ≥ 2 then base_threshold + 15
        else base_threshold
      decide (sell_score ≥ adjusted_threshold)

/-- TradingEngine::check_dca_sell_opportunity (price is `.unwrap()`ed). -/
def check_dca_sell_opportunity (P : Params) (fgi : ℕ) (s : SimState) (r : Row) :
    Option Bool :=
  r.price.map (check_dca_sell_core P fgi s r)

/-- TradingEngine::enter_trade at a row with the given price and datetime,
investing `current_cash * f`. -/
def enter_trade (P : Params) (price : ℚ) (dt : ℤ) (f : ℚ) (s : SimState) :
    SimState :=
  let investment := s.current_cash * f
  let fee := investment * P.generic_fee
  let amount := (investment - fee) / price
  { current_cash := s.current_cash - investment
    held := s.held + amount
    trade_history := s.trade_history ++ [⟨TradeType.buy, dt, price, amount⟩]
    position := some ⟨price, amount, investment, dt⟩ }

/-- The investment scale chosen by dca_buy from the relative price drop. -/
def dca_buy_scale (P : Params) (drop_percentage : ℚ) : ℚ :=
  if drop_percentage > 20/100 then 1
  else if drop_percentage > 15/100 then 9/10
  else if drop_percentage > 10/100 then P.dca_buy_fraction
  else P.dca_buy_fraction * (8/10)

/-- TradingEngine::dca_buy at a row with the given price and datetime. -/
def dca_buy (P : Params) (price : ℚ) (dt : ℤ) (s : SimState) : SimState :=
  match s.position with
  | none => s
  | some pos =>
    let drop_percentage := (pos.avg_price - price) / pos.avg_price
    let investment_scale := dca_buy_scale P drop_percentage
    let investment := s.current_cash * investment_scale
    if investment < 100 then s
    else
      let fee := investment * P.generic_fee
      let amount := (investment - fee) / price
      let total_amount := pos.amount + amount
      { current_cash := s.current_cash - investment
        held := s.held + amount
        trade_history := s.trade_history ++ [⟨TradeType.dcaBuy, dt, price, amount⟩]
        position := some
          { avg_price := (pos.avg_price * pos.amount + price * amount) / total_amount
            amount := total_amount
            investment := pos.investment + investment
            entry_time := pos.entry_time } }

/-- TradingEngine::partial_sell (profit taking), renamed profit_sell here. -/
def profit_sell (P : Params) (price : ℚ) (dt : ℤ) (s : SimState) : SimState :=
  match s.position with
  | none => s
  | some pos =>
    if price > pos.avg_price * (1 + P.profit_sell_threshold) then
      let sell_amount := pos.amount * P.profit_sell_fraction
      let investment_value := sell_amount * price
      let fee := investment_value * P.generic_fee
      let proceeds := investment_value - fee
      { current_cash := s.current_cash + proceeds
        held := s.held - sell_amount
        trade_history :=
          s.trade_history ++ [⟨TradeType.profitSell, dt, price, sell_amount⟩]
        position := some { pos with amount := pos.amount - sell_amount } }
    else s

/-- TradingEngine::full_sell. Note the internal guard: it liquidates only when
price > avg_price, otherwise it does nothing. -/
def full_sell (P : Params) (price : ℚ) (dt : ℤ) (s : SimState) : SimState :=
  match s.position with
  | none => s
  | some pos =>
    if price > pos.avg_price then
      let sell_amount := pos.amount
      let investment_value := sell_amount * price
      let fee := investment_value * P.generic_fee
      let proceeds := investment_value - fee
      { current_cash := s.current_cash + proceeds
        held := s.held - sell_amount
        trade_history :=
          s.trade_history ++ [⟨TradeType.fullSell, dt, price, sell_amount⟩]
        position := none }
    else s

/-- TradingEngine::final_sell at the last row (price_last, dt); the sell price
is avg_price when the last price is below it. -/
def final_sell (P : Params) (price_last : ℚ) (dt : ℤ) (s : SimState) : SimState :=
  match s.position with
  | none => s
  | some pos =>
    let sell_price := if price_last < pos.avg_price then pos.avg_price else price_last
    let sell_amount := pos.amount
    let investment_value := sell_amount * sell_price
    let fee := investment_value * P.generic_fee
    let proceeds := investment_value - fee
    { current_cash := s.current_cash + proceeds
      held := s.held - sell_amount
      trade_history :=
        s.trade_history ++ [⟨TradeType.finalSell, dt, sell_price, sell_amount⟩]
      position := none }

/-- The loop state of TradingEngine::run_simulation: the engine fields plus
the loop-local trackers (in_position, waiting_for_better_entry,
last_sell_price, consecutive_losses; the dead _wins/_losses counters are
omitted). -/
structure LoopState where
  sim : SimState
  in_position : Bool
  waiting_for_better_entry : Bool
  last_sell_price : ℚ
  consecutive_losses : ℕ
deriving DecidableEq

/-- The entry half of a run_simulation loop iteration (the `!in_position`
branch). -/
def sim_step_entry (P : Params) (st : LoopState) (r : Row) (price : ℚ)
    (buy_signal strong_buying_signal : Bool) : LoopState :=
  if st.waiting_for_better_entry ∧ price ≥ st.last_sell_price then st
  else if st.consecutive_losses ≥ 2 then
    if strong_buying_signal ∧ st.sim.current_cash > 100 then
      { st with
        sim := enter_trade P price r.datetime
          (P.initial_investment_fraction * (7/10)) st.sim
        in_position := true
        waiting_for_better_entry := false }
    else st
  else
    if buy_signal ∧ st.sim.current_cash > 100 then
      let investment_fraction :=
        if strong_buying_signal then P.initial_investment_fraction * (12/10)
        else P.initial_investment_fraction
      { st with
        sim := enter_trade P price r.datetime (min investment_fraction (7/10)) st.sim
        in_position := true
        waiting_for_better_entry := false }
    else st

/-- The position-management half of a loop iteration (DCA buy, partial
profit taking, or full exit on a sell signal). -/
def sim_step_held (P : Params) (st : LoopState) (r : Row) (price : ℚ)
    (sell_signal is_dca_buy is_dca_sell : Bool) : LoopState :=
  if is_dca_buy then { st with sim := dca_buy P price r.datetime st.sim }
  else if is_dca_sell then { st with sim := profit_sell P price r.datetime st.sim }
  else if sell_signal then
    match st.sim.position with
    | some pos =>
      if price > pos.avg_price then
        { st with
          sim := full_sell P price r.datetime st.sim
          in_position := false
          last_sell_price := price
          waiting_for_better_entry := true
          consecutive_losses := 0 }
      else st
    | none => st
  else st

/-- The risk-management (loss-stop) block at the end of a loop iteration,
run on the state left by sim_step_held. -/
def sim_step_loss_stop (P : Params) (st1 : LoopState) (r : Row)
    (price rsi : ℚ) : LoopState :=
  match st1.sim.position with
  | some pos =>
    if price < pos.avg_price * (8/10) then
      let time_in_position_days := Int.tdiv (r.datetime - pos.entry_time) 86400000
      if time_in_position_days > 14 ∧ rsi > 40 then
        { st1 with
          sim := full_sell P price r.datetime st1.sim
          in_position := false
          consecutive_losses := st1.consecutive_losses + 1 }
      else st1
    else st1
  | none => st1

/-- The body of one iteration of the run_simulation loop, after price and the
generated signals have been read successfully. -/
def sim_step_core (P : Params) (fgi : ℕ) (st : LoopState) (r : Row)
    (price : ℚ) (buy_signal sell_signal : Bool) : LoopState :=
  let ma25 := r.ma25.getD price
  let rsi := r.rsi.getD 50
  let is_dca_buy := check_dca_buy_core P fgi st.sim r price
  let is_dca_sell := check_dca_sell_core P fgi st.sim r price
  let strong_buying_signal :=
    buy_signal && decide (rsi < 35) && decide (price < ma25)
  if ¬ st.in_position then
    sim_step_entry P st r price buy_signal strong_buying_signal
  else
    sim_step_loss_stop P
      (sim_step_held P st r price sell_signal is_dca_buy is_dca_sell) r price rsi

/-- One iteration of the run_simulation loop; `none` models a panic on a null
unwrap (the loop unwraps price, and generate_signal unwraps its six required
columns). -/
def sim_step (P : Params) (fgi : ℕ) (st : LoopState) (r : Row) :
    Option LoopState := do
  let price ← r.price
  let signals ← generate_signal fgi r
  pure (sim_step_core P fgi st r price signals.1 signals.2)

/-- The walk of run_simulation over a list of rows. -/
def run_rows (P : Params) (fgi : ℕ) (st : LoopState) (rows : List Row) :
    Option LoopState :=
  rows.foldlM (sim_step P fgi) st

/-- The initial engine/loop state of a freshly constructed TradingEngine at the
start of run_simulation. -/
def init_state (P : Params) : LoopState where
  sim :=
    { current_cash := P.initial_capital
      held := 0
      trade_history := []
      position := none }
  in_position := false
  waiting_for_better_entry := false
  last_sell_price := 0
  consecutive_losses := 0

/-- The start index of the run_simulation walk: max(0, N - 365). -/
def sim_start (frame : List Row) : ℕ :=
  if frame.length > 365 then frame.length - 365 else 0

/-- The rows actually walked by run_simulation (the last 365, or all). -/
def sim_walk_rows (frame : List Row) : List Row :=
  frame.drop (sim_start frame)

/-- TradingEngine::run_simulation over a frame: walk the rows from sim_start,
then final_sell only when the loop-local in_position flag is still set and a
position is held. -/
def run_simulation (P : Params) (fgi : ℕ) (frame : List Row) :
    Option LoopState := do
  let st ← run_rows P fgi (init_state P) (sim_walk_rows frame)
  if st.in_position ∧ st.sim.position.isSome then
    match frame.getLast? with
    | some r => do
      let price ← r.price
      pure { st with sim := final_sell P price r.datetime st.sim }
    | none => pure st
  else pure st

/-- TradingEngine::get_summary (reads the last row's price). -/
def get_summary (P : Params) (frame : List Row) (s : SimState) :
    Option Summary := do
  let r ← frame.getLast?
  let final_price ← r.price
  let final_portfolio_value := s.current_cash + s.held * final_price
  let profit := final_portfolio_value - P.initial_capital
  let roi := profit / P.initial_capital * 100
  let total_fees :=
    (s.trade_history.map (fun t => t.price * t.amount * P.generic_fee)).sum
  pure
    { initial_capital := P.initial_capital
      final_portfolio_value := final_portfolio_value
      roi := roi
      num_trades := s.trade_history.length
      estimated_fees_paid := total_fees }

/-- TradingEngine from engine.rs; the four mutable portfolio fields are grouped
into `sim`. -/
structure TradingEngine where
  final_df : List Row
  fgi : ℕ
  params : Params
  sim : SimState
deriving DecidableEq

/-- TradingEngine::new: fgi defaults to 50, cash to initial_capital, no
position, empty history. -/
def TradingEngine.new (final_df : List Row) (fgi : Option ℕ) (params : Params) :
    TradingEngine where
  final_df := final_df
  fgi := fgi.getD 50
  params := params
  sim :=
    { current_cash := params.initial_capital
      held := 0
      trade_history := []
      position := none }

/-- TradingEngine::poll_event: classify the last row. -/
def poll_event (e : TradingEngine) : Option Event := do
  let r ← e.final_df.getLast?
  let price ← r.price
  let datetime := r.datetime
  let signals ← generate_signal e.fgi r
  let is_dca_buy ← check_dca_buy_opportunity e.params e.fgi e.sim r
  let is_dca_sell ← check_dca_sell_opportunity e.params e.fgi e.sim r
  if is_dca_buy then pure ⟨datetime, price, Signal.dcaBuy⟩
  else if is_dca_sell then pure ⟨datetime, price, Signal.dcaSell⟩
  else if signals.1 ∧ ¬ signals.2 then pure ⟨datetime, price, Signal.buy⟩
  else if signals.2 ∧ ¬ signals.1 then pure ⟨datetime, price, Signal.sell⟩
  else pure ⟨datetime, price, Signal.hold⟩

/-- Stable insertion (descending by roi): x goes in front of the first element
whose roi does not exceed it.  This is the unique stable descending order, the
behaviour of the stable sort_by call in compare_assets_performance. -/
def insert_roi (x : PortfolioSimulation) :
    List PortfolioSimulation → List PortfolioSimulation
  | [] => [x]
  | y :: ys => if y.roi ≤ x.roi then x :: y :: ys else y :: insert_roi x ys

/-- Stable sort by roi descending (the results.sort_by call). -/
def sort_by_roi (l : List PortfolioSimulation) : List PortfolioSimulation :=
  l.foldr insert_roi []

/-- The per-asset simulations of compare_assets_performance, in input order:
each asset gets a fresh engine with default Params and no fgi (hence 50). -/
def asset_simulations (assets : List (String × List Row)) :
    Option (List PortfolioSimulation) :=
  assets.mapM fun a => do
    let st ← run_simulation Params.default 50 a.2
    let su ← get_summary Params.default a.2 st.sim
    pure
      { symbol := a.1
        roi := su.roi
        final_value := su.final_portfolio_value
        num_trades := su.num_trades }

/-- TradingEngine::compare_assets_performance (the _days argument is unused in
the source). -/
def compare_assets_performance (assets : List (String × List Row)) :
    Option (List PortfolioSimulation) :=
  (asset_simulations assets).map sort_by_roi


/-! Concrete indicator frames exercising the loss-stop path of
run_simulation.  In each frame the engine enters at row 0 (buy score 65-75,
no sell signal), and at the next row the price sits more than 20% below the
average entry price, more than 14 days have passed, and rsi is 45 > 40 - the
loss-stop condition of the claim.  The DCA-buy score at the crash row is 40
(< 60) and the DCA-sell check is off (price below avg), so only the loss-stop
is in play there. -/

def c1row0 : Row :=
  { datetime := 0, price := some 100, ma5 := some 90, ma25 := some 80,
    ma50 := some 70, ma111 := some 60, macd := some 1, signal := some 0,
    rsi := some 38, roc := some 0, lower_band := some 1, upper_band := some 1000,
    vma20 := some 95, atr14 := some 1 }

def c1row1 : Row :=
  { datetime := 1382400000, price := some 70, ma5 := some 280, ma25 := some 300,
    ma50 := some 300, ma111 := some 200, macd := some (-1), signal := some 0,
    rsi := some 45, roc := some 0, lower_band := some 1, upper_band := some 10000,
    vma20 := some 60, atr14 := some 1 }

/-- Claim C1 (code bug): at row 1 of this frame a position is held with
avg_price 100, price 70 < 0.8·100, 16 days > 14 in position, rsi 45 > 40 -
the loss-stop fires (consecutive_losses becomes 1) - yet no full exit is
performed: the position is still Some, and trade_history still holds only the
entry Buy, because full_sell's internal `price > avg_price` guard is false at
every loss-stop row.  The claim (and the source's own "cut losses" comments)
say the position becomes None and a sell trade is appended. -/
theorem c1_loss_stop_no_exit :
    run_rows Params.default 50 (init_state Params.default) [c1row0, c1row1] =
      some
        { sim :=
            { current_cash := 6500
              held := 1393/40
              trade_history := [⟨TradeType.buy, 0, 100, 1393/40⟩]
              position := some ⟨100, 1393/40, 3500, 0⟩ }
          in_position := false
          waiting_for_better_entry := false
          last_sell_price := 0
          consecutive_losses := 1 } := by
  decide

def c2row0 : Row :=
  { datetime := 0, price := some 200, ma5 := some 180, ma25 := some 160,
    ma50 := some 140, ma111 := some 120, macd := some 1, signal := some 0,
    rsi := some 38, roc := some 0, lower_band := some 1, upper_band := some 2000,
    vma20 := some 190, atr14 := some 1 }

def c2row1 : Row :=
  { datetime := 1728000000, price := some 140, ma5 := some 600, ma25 := some 700,
    ma50 := some 700, ma111 := some 500, macd := some (-1), signal := some 0,
    rsi := some 45, roc := some 0, lower_band := some 1, upper_band := some 10000,
    vma20 := some 100, atr14 := some 1 }

/-- Claim C2 (code bug): on this 2-row frame run_simulation completes while
STILL holding a position and appends no FinalSell: the dead loss-stop at row 1
clears the loop-local in_position flag without selling, and the terminal
final_sell is guarded by `in_position && position.is_some()`, so it is
skipped even though a position is held after the row walk. -/
theorem c2_run_ends_holding_position :
    run_simulation Params.default 50 [c2row0, c2row1] =
      some
        { sim :=
            { current_cash := 6500
              held := 1393/80
              trade_history := [⟨TradeType.buy, 0, 200, 1393/80⟩]
              position := some ⟨200, 1393/80, 3500, 0⟩ }
          in_position := false
          waiting_for_better_entry := false
          last_sell_price := 0
          consecutive_losses := 1 } := by
  decide

def c3row2 : Row :=
  { datetime := 1468800000, price := some 60, ma5 := some 55, ma25 := some 50,
    ma50 := some 45, ma111 := some 40, macd := some 1, signal := some 0,
    rsi := some 38, roc := some 0, lower_band := some 1, upper_band := some 1000,
    vma20 := some 58, atr14 := some 1 }

/-- Claim C3 (code bug): after the dead loss-stop of row 1 clears in_position
while the row-0 position (amount 1393/40) is still held, the entry logic
re-fires at row 2 and enter_trade overwrites position with the new amount
18109/480 while `held` accumulates to 6965/96 = 34825/480.  The state after
row 2 has a position whose amount differs from held, violating the claimed
invariant `held = position.amount`. -/
theorem c3_held_invariant_broken :
    run_rows Params.default 50 (init_state Params.default)
        [c1row0, c1row1, c3row2] =
      some
        { sim :=
            { current_cash := 4225
              held := 6965/96
              trade_history :=
                [⟨TradeType.buy, 0, 100, 1393/40⟩,
                 ⟨TradeType.buy, 1468800000, 60, 18109/480⟩]
              position := some ⟨60, 18109/480, 2275, 1468800000⟩ }
          in_position := true
          waiting_for_better_entry := false
          last_sell_price := 0
          consecutive_losses := 1 } ∧
    ((18109 : ℚ)/480 ≠ 6965/96) := by
  exact ⟨by decide, by decide⟩

/-- A valid row (non-null price) on which the signal scorer nevertheless
panics: ma25 is null, as it is on every row of index < 24 of a pipeline frame
(insufficient history), and generate_signal `.unwrap()`s it. -/
def c5row : Row :=
  { datetime := 0, price := some 100, ma5 := some 100, ma25 := none,
    ma50 := none, ma111 := none, macd := some 0, signal := some 0,
    rsi := none, roc := none, lower_band := none, upper_band := none,
    vma20 := none, atr14 := none }

/-- Claim C5 counterexample: a row with non-null price but null ma25 (the
insufficient-history shape of an early pipeline row) makes generate_signal
fail (`none` models the source's `.unwrap()` panic), refuting "evaluating the
signal scorer at that row does not fail even when other indicator columns are
null". -/
theorem c5_scorer_panics_on_null_ma25 :
    c5row.price = some 100 ∧ generate_signal 50 c5row = none := by
  exact ⟨rfl, rfl⟩

/-- Claim C5 (amended): the scorer does not fail provided price, ma5, ma25,
ma50, macd and signal are non-null at the row; the remaining columns are
replaced on read by exactly the claimed fallbacks: ma111 by 0.9·price, rsi by
50, roc by 0, lower_band by 0.9·price, upper_band by 1.1·price, vma20 by
price, atr14 by 0.05·price. -/
theorem c5_scorer_total_with_fallbacks (fgi : ℕ) (r : Row)
    (p m5 m25 m50 mc sg : ℚ)
    (hp : r.price = some p) (h5 : r.ma5 = some m5) (h25 : r.ma25 = some m25)
    (h50 : r.ma50 = some m50) (hmc : r.macd = some mc)
    (hsg : r.signal = some sg) :
    generate_signal fgi r =
      some (signal_scores fgi p m5 m25 m50 (r.ma111.getD (p * (9/10))) mc sg
        (r.rsi.getD 50) (r.lower_band.getD (p * (9/10)))
        (r.upper_band.getD (p * (11/10))) (r.vma20.getD p)
        (r.atr14.getD (p * (1/20)))) := by
  simp [generate_signal, hp, h5, h25, h50, hmc, hsg]

/-- A realistic early-history row: the six required columns present, all seven
fallback columns null. -/
def c5wrow : Row :=
  { datetime := 0, price := some 100, ma5 := some 90, ma25 := some 80,
    ma50 := some 70, ma111 := none, macd := some 1, signal := some 0,
    rsi := none, roc := none, lower_band := none, upper_band := none,
    vma20 := none, atr14 := none }

/-- Witness for c5_scorer_total_with_fallbacks at a concrete row whose seven
optional columns are all null. -/
theorem c5_scorer_total_with_fallbacks_witness :
    generate_signal 50 c5wrow =
      some (signal_scores 50 100 90 80 70 (Option.getD c5wrow.ma111 (100 * (9/10)))
        1 0 (Option.getD c5wrow.rsi 50)
        (Option.getD c5wrow.lower_band (100 * (9/10)))
        (Option.getD c5wrow.upper_band (100 * (11/10)))
        (Option.getD c5wrow.vma20 100) (Option.getD c5wrow.atr14 (100 * (1/20)))) :=
  c5_scorer_total_with_fallbacks 50 c5wrow 100 90 80 70 1 0 rfl rfl rfl rfl rfl rfl

/-- Claim C10: a freshly constructed TradingEngine holds no Position, both
DCA-opportunity predicates are false without a position, and so poll_event
never returns DcaBuy or DcaSell - whenever it returns an event at all, the
signal is Buy, Sell or Hold. -/
theorem c10_fresh_poll_never_dca (df : List Row) (fgi : Option ℕ) (P : Params)
    (ev : Event) (h : poll_event (TradingEngine.new df fgi P) = some ev) :
    ev.signal ≠ Signal.dcaBuy ∧ ev.signal ≠ Signal.dcaSell := by
  simp only [poll_event, TradingEngine.new, Option.bind_eq_bind, Option.pure_def,
    Option.bind_eq_some] at h
  obtain ⟨r, hr, h⟩ := h
  obtain ⟨price, hp, h⟩ := h
  obtain ⟨bs, hg, h⟩ := h
  obtain ⟨db, hdb, h⟩ := h
  obtain ⟨ds, hds, h⟩ := h
  rw [check_dca_buy_opportunity, hp] at hdb
  rw [check_dca_sell_opportunity, hp] at hds
  simp only [Option.map_some', Option.some_inj, check_dca_buy_core,
    check_dca_sell_core] at hdb hds
  subst hdb
  subst hds
  simp only [Bool.false_eq_true, if_false] at h
  split at h
  all_goals try split at h
  all_goals injection h with h
  all_goals subst h
  all_goals exact ⟨by simp, by simp⟩

/-- A flat row (price = all moving averages = 100, macd = signal = 0): neither
buy nor sell scores reach their thresholds, so a fresh engine polls Hold. -/
def c10row : Row :=
  { datetime := 0, price := some 100, ma5 := some 100, ma25 := some 100,
    ma50 := some 100, ma111 := some 100, macd := some 0, signal := some 0,
    rsi := some 50, roc := some 0, lower_band := some 90, upper_band := some 110,
    vma20 := some 100, atr14 := some 1 }

/-- Witness for c10_fresh_poll_never_dca on a concrete one-row frame where
poll_event returns a Hold event. -/
theorem c10_fresh_poll_never_dca_witness :
    (⟨0, 100, Signal.hold⟩ : Event).signal ≠ Signal.dcaBuy ∧
    (⟨0, 100, Signal.hold⟩ : Event).signal ≠ Signal.dcaSell :=
  c10_fresh_poll_never_dca [c10row] none Params.default ⟨0, 100, Signal.hold⟩
    (by decide)

/-- A frame row with a negative price (the claim only assumes the datetime
column is strictly ascending, nothing about prices or parameters).  The buy
score is 75 with threshold 60, so the engine enters, and the bought amount
(investment - fee)/price is negative. -/
def c4row : Row :=
  { datetime := 0, price := some (-100), ma5 := some (-200), ma25 := some (-300),
    ma50 := some (-400), ma111 := some (-500), macd := some 1, signal := some 0,
    rsi := some 35, roc := some 0, lower_band := some (-1000),
    upper_band := some 1000, vma20 := some 0, atr14 := some 1 }

/-- Claim C4 counterexample: on the one-row frame [c4row], whose datetime
column is (trivially) strictly ascending, the simulator walk reaches a state
with held = -1393/40 < 0 (and a position of negative amount), refuting
"held ≥ 0 at every step" as stated.  The claim needs positive prices. -/
theorem c4_held_negative_counterexample :
    run_rows Params.default 50 (init_state Params.default) [c4row] =
      some
        { sim :=
            { current_cash := 6500
              held := -1393/40
              trade_history := [⟨TradeType.buy, 0, -100, -1393/40⟩]
              position := some ⟨-100, -1393/40, 3500, 0⟩ }
          in_position := true
          waiting_for_better_entry := false
          last_sell_price := 0
          consecutive_losses := 0 } ∧
    (-1393/40 : ℚ) < 0 := by
  exact ⟨by decide, by decide⟩

/-- Validity of a Params bundle: the capital is nonnegative and the
investment/sell fractions and the fee are genuine fractions (in [0,1]), as the
defaults are.  Needed for cash ≥ 0 and held ≥ 0. -/
def ParamsValid (P : Params) : Prop :=
  0 ≤ P.initial_capital ∧
  0 ≤ P.initial_investment_fraction ∧ P.initial_investment_fraction ≤ 1 ∧
  0 ≤ P.dca_buy_fraction ∧ P.dca_buy_fraction ≤ 1 ∧
  0 ≤ P.profit_sell_fraction ∧ P.profit_sell_fraction ≤ 1 ∧
  0 ≤ P.generic_fee ∧ P.generic_fee ≤ 1

instance (P : Params) : Decidable (ParamsValid P) := by
  unfold ParamsValid
  infer_instance

/-- The portfolio invariant: nonnegative cash and holdings, and any held
position has a nonnegative amount not exceeding held. -/
def SimInv (s : SimState) : Prop :=
  0 ≤ s.current_cash ∧ 0 ≤ s.held ∧
  ∀ p ∈ s.position, 0 ≤ p.amount ∧ p.amount ≤ s.held

/-- The trade history has non-decreasing datetimes. -/
def TradesSorted (s : SimState) : Prop :=
  (s.trade_history.map Trade.datetime).Pairwise (· ≤ ·)

/-- All recorded trades are dated at or before d. -/
def trades_bound (d : ℤ) (s : SimState) : Prop :=
  ∀ t ∈ s.trade_history, t.datetime ≤ d

/-- Shape of the trade history after a block of the loop body dated d: some
list of trades, all dated d, appended at the end. -/
def AppendsAt (d : ℤ) (s s2 : SimState) : Prop :=
  ∃ l, s2.trade_history = s.trade_history ++ l ∧ ∀ t ∈ l, t.datetime = d

theorem AppendsAt.refl (d : ℤ) (s : SimState) : AppendsAt d s s :=
  ⟨[], (List.append_nil _).symm, by simp⟩

theorem AppendsAt.of_eq {d : ℤ} {s s2 : SimState}
    (h : s2.trade_history = s.trade_history) : AppendsAt d s s2 :=
  ⟨[], by rw [h, List.append_nil], by simp⟩

theorem AppendsAt.trans {d : ℤ} {s1 s2 s3 : SimState}
    (h1 : AppendsAt d s1 s2) (h2 : AppendsAt d s2 s3) : AppendsAt d s1 s3 := by
  obtain ⟨l1, e1, b1⟩ := h1
  obtain ⟨l2, e2, b2⟩ := h2
  refine ⟨l1 ++ l2, by rw [e2, e1, List.append_assoc], ?_⟩
  intro t ht
  rcases List.mem_append.mp ht with h | h
  exacts [b1 t h, b2 t h]

theorem appendsAt_sorted {d : ℤ} {s s2 : SimState} (H : AppendsAt d s s2)
    (hs : TradesSorted s) (hb : trades_bound d s) :
    TradesSorted s2 ∧ trades_bound d s2 ∧
      ∀ t ∈ s2.trade_history, t ∈ s.trade_history ∨ t.datetime = d := by
  obtain ⟨l, H, hl⟩ := H
  refine ⟨?_, ?_, ?_⟩
  · rw [TradesSorted, H, List.map_append, List.pairwise_append]
    refine ⟨hs, ?_, ?_⟩
    · rw [List.pairwise_map]
      apply List.pairwise_of_forall_mem_list
      intro a ha b hb2
      rw [hl a ha, hl b hb2]
    · intro a ha b hb2
      simp only [List.mem_map] at ha hb2
      obtain ⟨t2, ht2, rfl⟩ := ha
      obtain ⟨t3, ht3, rfl⟩ := hb2
      rw [hl t3 ht3]
      exact hb t2 ht2
  · intro t2 h2
    rw [H] at h2
    rcases List.mem_append.mp h2 with h2 | h2
    · exact hb t2 h2
    · exact le_of_eq (hl t2 h2)
  · intro t2 h2
    rw [H] at h2
    rcases List.mem_append.mp h2 with h2 | h2
    · exact Or.inl h2
    · exact Or.inr (hl t2 h2)

theorem enter_trade_appendsAt (P : Params) (price : ℚ) (dt : ℤ) (f : ℚ)
    (s : SimState) : AppendsAt dt s (enter_trade P price dt f s) := by
  exact ⟨[_], rfl, by simp⟩

theorem dca_buy_appendsAt (P : Params) (price : ℚ) (dt : ℤ) (s : SimState) :
    AppendsAt dt s (dca_buy P price dt s) := by
  unfold dca_buy
  dsimp only
  repeat' split
  all_goals first
    | exact AppendsAt.of_eq rfl
    | exact ⟨[_], rfl, by simp⟩

theorem profit_sell_appendsAt (P : Params) (price : ℚ) (dt : ℤ) (s : SimState) :
    AppendsAt dt s (profit_sell P price dt s) := by
  unfold profit_sell
  dsimp only
  repeat' split
  all_goals first
    | exact AppendsAt.of_eq rfl
    | exact ⟨[_], rfl, by simp⟩

theorem full_sell_appendsAt (P : Params) (price : ℚ) (dt : ℤ) (s : SimState) :
    AppendsAt dt s (full_sell P price dt s) := by
  unfold full_sell
  dsimp only
  repeat' split
  all_goals first
    | exact AppendsAt.of_eq rfl
    | exact ⟨[_], rfl, by simp⟩

theorem final_sell_appendsAt (P : Params) (price : ℚ) (dt : ℤ) (s : SimState) :
    AppendsAt dt s (final_sell P price dt s) := by
  unfold final_sell
  dsimp only
  repeat' split
  all_goals first
    | exact AppendsAt.of_eq rfl
    | exact ⟨[_], rfl, by simp⟩

theorem dca_buy_scale_nonneg (P : Params) (d : ℚ) (h0 : 0 ≤ P.dca_buy_fraction) :
    0 ≤ dca_buy_scale P d := by
  unfold dca_buy_scale
  split_ifs <;> nlinarith

theorem dca_buy_scale_le_one (P : Params) (d : ℚ) (h0 : 0 ≤ P.dca_buy_fraction)
    (h1 : P.dca_buy_fraction ≤ 1) : dca_buy_scale P d ≤ 1 := by
  unfold dca_buy_scale
  split_ifs <;> nlinarith

theorem enter_trade_inv {P : Params} {s : SimState} (price : ℚ) (dt : ℤ) (f : ℚ)
    (hP : ParamsValid P) (hpr : 0 < price) (hf0 : 0 ≤ f) (hf1 : f ≤ 1)
    (h : SimInv s) : SimInv (enter_trade P price dt f s) := by
  obtain ⟨hc, hh, hpos⟩ := h
  obtain ⟨hcap, hi0, hi1, hd0, hd1, hp0, hp1, hg0, hg1⟩ := hP
  unfold enter_trade SimInv
  dsimp only
  have hamt : 0 ≤ (s.current_cash * f - s.current_cash * f * P.generic_fee) / price := by
    apply div_nonneg _ hpr.le
    nlinarith [mul_nonneg hc hf0]
  refine ⟨by nlinarith [mul_nonneg hc (sub_nonneg.mpr hf1)], by linarith, ?_⟩
  intro p hp2
  simp only [Option.mem_def, Option.some_inj] at hp2
  subst hp2
  dsimp only
  exact ⟨hamt, by linarith⟩

theorem dca_buy_inv {P : Params} {s : SimState} (price : ℚ) (dt : ℤ)
    (hP : ParamsValid P) (hpr : 0 < price) (h : SimInv s) :
    SimInv (dca_buy P price dt s) := by
  obtain ⟨hc, hh, hpos⟩ := h
  obtain ⟨hcap, hi0, hi1, hd0, hd1, hp0, hp1, hg0, hg1⟩ := hP
  unfold dca_buy
  dsimp only
  split
  · exact ⟨hc, hh, hpos⟩
  · rename_i pos hmatch
    have hpa := hpos pos hmatch
    split
    · exact ⟨hc, hh, hpos⟩
    · have hs0 : 0 ≤ dca_buy_scale P ((pos.avg_price - price) / pos.avg_price) :=
        dca_buy_scale_nonneg P _ hd0
      have hs1 : dca_buy_scale P ((pos.avg_price - price) / pos.avg_price) ≤ 1 :=
        dca_buy_scale_le_one P _ hd0 hd1
      have hamt : 0 ≤ (s.current_cash * dca_buy_scale P ((pos.avg_price - price) / pos.avg_price)
          - s.current_cash * dca_buy_scale P ((pos.avg_price - price) / pos.avg_price)
            * P.generic_fee) / price := by
        apply div_nonneg _ hpr.le
        nlinarith [mul_nonneg hc hs0]
      constructor
      · nlinarith [mul_nonneg hc (sub_nonneg.mpr hs1)]
      constructor
      · dsimp only
        linarith
      · intro p hp2
        simp only [Option.mem_def, Option.some_inj] at hp2
        subst hp2
        dsimp only
        exact ⟨by linarith [hpa.1], by linarith [hpa.2]⟩

theorem profit_sell_inv {P : Params} {s : SimState} (price : ℚ) (dt : ℤ)
    (hP : ParamsValid P) (hpr : 0 < price) (h : SimInv s) :
    SimInv (profit_sell P price dt s) := by
  obtain ⟨hc, hh, hpos⟩ := h
  obtain ⟨hcap, hi0, hi1, hd0, hd1, hp0, hp1, hg0, hg1⟩ := hP
  unfold profit_sell
  dsimp only
  split
  · exact ⟨hc, hh, hpos⟩
  · rename_i pos hmatch
    have hpa := hpos pos hmatch
    split
    · have hsell0 : 0 ≤ pos.amount * P.profit_sell_fraction := mul_nonneg hpa.1 hp0
      have hsell_le : pos.amount * P.profit_sell_fraction ≤ pos.amount := by
        nlinarith [hpa.1]
      have hproc : 0 ≤ pos.amount * P.profit_sell_fraction * price
          - pos.amount * P.profit_sell_fraction * price * P.generic_fee := by
        nlinarith [mul_nonneg hsell0 hpr.le]
      refine ⟨?_, ?_, ?_⟩
      · dsimp only
        linarith
      · dsimp only
        linarith [hpa.2]
      · intro p hp2
        simp only [Option.mem_def, Option.some_inj] at hp2
        subst hp2
        dsimp only
        exact ⟨by linarith, by linarith [hpa.2]⟩
    · exact ⟨hc, hh, hpos⟩

theorem full_sell_inv {P : Params} {s : SimState} (price : ℚ) (dt : ℤ)
    (hP : ParamsValid P) (hpr : 0 < price) (h : SimInv s) :
    SimInv (full_sell P price dt s) := by
  obtain ⟨hc, hh, hpos⟩ := h
  obtain ⟨hcap, hi0, hi1, hd0, hd1, hp0, hp1, hg0, hg1⟩ := hP
  unfold full_sell
  dsimp only
  split
  · exact ⟨hc, hh, hpos⟩
  · rename_i pos hmatch
    have hpa := hpos pos hmatch
    split
    · have hproc : 0 ≤ pos.amount * price - pos.amount * price * P.generic_fee := by
        nlinarith [mul_nonneg hpa.1 hpr.le]
      refine ⟨?_, ?_, ?_⟩
      · dsimp only
        linarith
      · dsimp only
        linarith [hpa.2]
      · intro p hp2
        simp only [Option.mem_def] at hp2
        exact absurd hp2 (by simp)
    · exact ⟨hc, hh, hpos⟩

theorem final_sell_inv {P : Params} {s : SimState} (price_last : ℚ) (dt : ℤ)
    (hP : ParamsValid P) (hpr : 0 < price_last) (h : SimInv s) :
    SimInv (final_sell P price_last dt s) := by
  obtain ⟨hc, hh, hpos⟩ := h
  obtain ⟨hcap, hi0, hi1, hd0, hd1, hp0, hp1, hg0, hg1⟩ := hP
  unfold final_sell
  dsimp only
  split
  · exact ⟨hc, hh, hpos⟩
  · rename_i pos hmatch
    have hpa := hpos pos hmatch
    have hsp : 0 < (if price_last < pos.avg_price then pos.avg_price else price_last) := by
      split
      · linarith
      · linarith
    have hproc : 0 ≤ pos.amount * (if price_last < pos.avg_price then pos.avg_price else price_last)
        - pos.amount * (if price_last < pos.avg_price then pos.avg_price else price_last)
          * P.generic_fee := by
      nlinarith [mul_nonneg hpa.1 hsp.le]
    refine ⟨?_, ?_, ?_⟩
    · dsimp only
      linarith
    · dsimp only
      linarith [hpa.2]
    · intro p hp2
      simp only [Option.mem_def] at hp2
      exact absurd hp2 (by simp)

theorem sim_step_entry_inv {P : Params} {st : LoopState} (r : Row) (price : ℚ)
    (b strong : Bool) (hP : ParamsValid P) (hpr : 0 < price)
    (h : SimInv st.sim) : SimInv (sim_step_entry P st r price b strong).sim := by
  have hi0 := hP.2.1
  have hi1 := hP.2.2.1
  unfold sim_step_entry
  dsimp only
  split
  · exact h
  split
  · split
    · exact enter_trade_inv _ _ _ hP hpr (by nlinarith) (by nlinarith) h
    · exact h
  · split
    · refine enter_trade_inv _ _ _ hP hpr ?_ ?_ h
      · refine le_min ?_ (by norm_num)
        split <;> nlinarith
      · exact (min_le_right _ _).trans (by norm_num)
    · exact h

theorem sim_step_held_inv {P : Params} {st : LoopState} (r : Row) (price : ℚ)
    (ss db ds : Bool) (hP : ParamsValid P) (hpr : 0 < price)
    (h : SimInv st.sim) : SimInv (sim_step_held P st r price ss db ds).sim := by
  unfold sim_step_held
  split
  · exact dca_buy_inv _ _ hP hpr h
  split
  · exact profit_sell_inv _ _ hP hpr h
  split
  · split
    · split
      · exact full_sell_inv _ _ hP hpr h
      · exact h
    · exact h
  · exact h

theorem sim_step_loss_stop_inv {P : Params} {st1 : LoopState} (r : Row)
    (price rsi : ℚ) (hP : ParamsValid P) (hpr : 0 < price)
    (h : SimInv st1.sim) : SimInv (sim_step_loss_stop P st1 r price rsi).sim := by
  unfold sim_step_loss_stop
  dsimp only
  split
  · split
    · split
      · exact full_sell_inv _ _ hP hpr h
      · exact h
    · exact h
  · exact h

theorem sim_step_core_inv {P : Params} {st : LoopState} (fgi : ℕ) (r : Row)
    (price : ℚ) (b ss : Bool) (hP : ParamsValid P) (hpr : 0 < price)
    (h : SimInv st.sim) : SimInv (sim_step_core P fgi st r price b ss).sim := by
  unfold sim_step_core
  dsimp only
  split
  · exact sim_step_entry_inv _ _ _ _ hP hpr h
  · exact sim_step_loss_stop_inv _ _ _ hP hpr
      (sim_step_held_inv _ _ _ _ _ hP hpr h)

theorem sim_step_entry_appendsAt (P : Params) (st : LoopState) (r : Row)
    (price : ℚ) (b strong : Bool) :
    AppendsAt r.datetime st.sim (sim_step_entry P st r price b strong).sim := by
  unfold sim_step_entry
  dsimp only
  repeat' split
  all_goals first
    | exact AppendsAt.refl _ _
    | exact enter_trade_appendsAt _ _ _ _ _

theorem sim_step_held_appendsAt (P : Params) (st : LoopState) (r : Row)
    (price : ℚ) (ss db ds : Bool) :
    AppendsAt r.datetime st.sim (sim_step_held P st r price ss db ds).sim := by
  unfold sim_step_held
  split
  · exact dca_buy_appendsAt _ _ _ _
  split
  · exact profit_sell_appendsAt _ _ _ _
  split
  · split
    · split
      · exact full_sell_appendsAt _ _ _ _
      · exact AppendsAt.refl _ _
    · exact AppendsAt.refl _ _
  · exact AppendsAt.refl _ _

theorem sim_step_loss_stop_appendsAt (P : Params) (st1 : LoopState) (r : Row)
    (price rsi : ℚ) :
    AppendsAt r.datetime st1.sim (sim_step_loss_stop P st1 r price rsi).sim := by
  unfold sim_step_loss_stop
  dsimp only
  repeat' split
  all_goals first
    | exact AppendsAt.refl _ _
    | exact full_sell_appendsAt _ _ _ _

theorem sim_step_core_appendsAt (P : Params) (fgi : ℕ) (st : LoopState)
    (r : Row) (price : ℚ) (b ss : Bool) :
    AppendsAt r.datetime st.sim (sim_step_core P fgi st r price b ss).sim := by
  unfold sim_step_core
  dsimp only
  split
  · exact sim_step_entry_appendsAt _ _ _ _ _ _
  · exact AppendsAt.trans (sim_step_held_appendsAt _ _ _ _ _ _ _)
      (sim_step_loss_stop_appendsAt _ _ _ _ _)

theorem sim_step_eq_some {P : Params} {fgi : ℕ} {st st2 : LoopState} {r : Row} :
    sim_step P fgi st r = some st2 ↔
      ∃ price bs, r.price = some price ∧ generate_signal fgi r = some bs ∧
        st2 = sim_step_core P fgi st r price bs.1 bs.2 := by
  simp only [sim_step, Option.bind_eq_bind, Option.pure_def, Option.bind_eq_some,
    Option.some_inj]
  constructor
  · rintro ⟨price, hp, bs, hg, h⟩
    exact ⟨price, bs, hp, hg, h.symm⟩
  · rintro ⟨price, bs, hp, hg, rfl⟩
    exact ⟨price, hp, bs, hg, rfl⟩

theorem run_rows_props (P : Params) (fgi : ℕ) (hP : ParamsValid P) :
    ∀ (rows : List Row) (st st2 : LoopState),
      (∀ r ∈ rows, ∀ q ∈ r.price, 0 < q) →
      ((rows.map Row.datetime).Pairwise (· < ·)) →
      SimInv st.sim → TradesSorted st.sim →
      (∀ t ∈ st.sim.trade_history, ∀ r ∈ rows, t.datetime ≤ r.datetime) →
      run_rows P fgi st rows = some st2 →
      SimInv st2.sim ∧ TradesSorted st2.sim ∧
        (∀ t ∈ st2.sim.trade_history,
          t ∈ st.sim.trade_history ∨ ∃ r ∈ rows, t.datetime = r.datetime) := by
  intro rows
  induction rows with
  | nil =>
    intro st st2 _ _ hInv hSort _ hrun
    simp only [run_rows, List.foldlM_nil, Option.pure_def, Option.some_inj] at hrun
    subst hrun
    exact ⟨hInv, hSort, fun t ht => Or.inl ht⟩
  | cons r rest ih =>
    intro st st2 hpos hasc hInv hSort hbound hrun
    rw [run_rows, List.foldlM_cons] at hrun
    simp only [Option.bind_eq_bind, Option.bind_eq_some] at hrun
    obtain ⟨st1, hstep, hrest⟩ := hrun
    obtain ⟨price, bs, hp, hg, hst1⟩ := sim_step_eq_some.mp hstep
    have hpr : 0 < price := hpos r (List.mem_cons_self r rest) price hp
    have hInv1 : SimInv st1.sim := by
      rw [hst1]
      exact sim_step_core_inv _ _ _ _ _ hP hpr hInv
    have happ : AppendsAt r.datetime st.sim st1.sim := by
      rw [hst1]
      exact sim_step_core_appendsAt _ _ _ _ _ _ _
    have hb : trades_bound r.datetime st.sim :=
      fun t ht => hbound t ht r (List.mem_cons_self r rest)
    obtain ⟨hSort1, hb1, hprov1⟩ := appendsAt_sorted happ hSort hb
    rw [List.map_cons] at hasc
    have hpc := List.pairwise_cons.mp hasc
    have hasc_head : ∀ r2 ∈ rest, r.datetime < r2.datetime := by
      intro r2 h2
      exact hpc.1 _ (List.mem_map_of_mem _ h2)
    have hbound1 : ∀ t ∈ st1.sim.trade_history, ∀ r2 ∈ rest, t.datetime ≤ r2.datetime := by
      intro t ht r2 h2
      rcases hprov1 t ht with h | h
      · exact hbound t h r2 (List.mem_cons_of_mem _ h2)
      · rw [h]
        exact (hasc_head r2 h2).le
    have hSub := ih st1 st2 (fun r2 h2 => hpos r2 (List.mem_cons_of_mem _ h2))
      hpc.2 hInv1 hSort1 hbound1 hrest
    refine ⟨hSub.1, hSub.2.1, ?_⟩
    intro t ht
    rcases hSub.2.2 t ht with h | ⟨r2, h2, hdt⟩
    · rcases hprov1 t h with h | h
      · exact Or.inl h
      · exact Or.inr ⟨r, List.mem_cons_self r rest, h⟩
    · exact Or.inr ⟨r2, List.mem_cons_of_mem _ h2, hdt⟩

theorem datetime_le_getLast {frame : List Row}
    (hasc : (frame.map Row.datetime).Pairwise (· < ·)) {rl : Row}
    (hl : frame.getLast? = some rl) : ∀ r ∈ frame, r.datetime ≤ rl.datetime := by
  obtain ⟨ys, rfl⟩ := List.getLast?_eq_some_iff.mp hl
  rw [List.map_append, List.pairwise_append] at hasc
  intro r hr
  rcases List.mem_append.mp hr with hr | hr
  · exact (hasc.2.2 _ (List.mem_map_of_mem _ hr) _ (by simp)).le
  · simp only [List.mem_singleton] at hr
    subst hr
    exact le_refl _

/-- Claim C4 (amended): over a frame whose datetime column is strictly
ascending AND whose price entries are positive, and for params whose
investment/sell fractions and fee lie in [0,1] (capital nonnegative), as the
defaults are: at every step of the walk, and after the full run,
current_cash ≥ 0 and held ≥ 0, and the trade history is non-decreasing in
datetime. -/
theorem c4_invariants_amended (P : Params) (fgi : ℕ) (frame : List Row)
    (hP : ParamsValid P)
    (hpos : ∀ r ∈ frame, ∀ q ∈ r.price, 0 < q)
    (hasc : (frame.map Row.datetime).Pairwise (· < ·)) :
    (∀ k st, run_rows P fgi (init_state P) ((sim_walk_rows frame).take k) = some st →
        0 ≤ st.sim.current_cash ∧ 0 ≤ st.sim.held ∧ TradesSorted st.sim) ∧
    (∀ st, run_simulation P fgi frame = some st →
        0 ≤ st.sim.current_cash ∧ 0 ≤ st.sim.held ∧ TradesSorted st.sim) := by
  have hInv0 : SimInv (init_state P).sim := by
    refine ⟨hP.1, le_refl 0, ?_⟩
    intro p hp2
    simp only [init_state, Option.mem_def] at hp2
    exact absurd hp2 (by simp)
  have hSort0 : TradesSorted (init_state P).sim := by
    simp [TradesSorted, init_state]
  have main : ∀ l : List Row, List.Sublist l frame → ∀ st2,
      run_rows P fgi (init_state P) l = some st2 →
      SimInv st2.sim ∧ TradesSorted st2.sim ∧
        ∀ t ∈ st2.sim.trade_history, ∃ r ∈ l, t.datetime = r.datetime := by
    intro l hsub st2 hrun
    have h1 : ∀ r ∈ l, ∀ q ∈ r.price, 0 < q := fun r h => hpos r (hsub.subset h)
    have h2 : (l.map Row.datetime).Pairwise (· < ·) :=
      List.Pairwise.sublist (hsub.map Row.datetime) hasc
    have h3 : ∀ t ∈ (init_state P).sim.trade_history, ∀ r ∈ l,
        t.datetime ≤ r.datetime := by
      intro t ht
      simp [init_state] at ht
    have H := run_rows_props P fgi hP l (init_state P) st2 h1 h2 hInv0 hSort0 h3 hrun
    refine ⟨H.1, H.2.1, ?_⟩
    intro t ht
    rcases H.2.2 t ht with h | h
    · simp [init_state] at h
    · exact h
  constructor
  · intro k st hrun
    have hsub : List.Sublist ((sim_walk_rows frame).take k) frame :=
      (List.take_sublist _ _).trans (List.drop_sublist _ _)
    obtain ⟨hInv, hSort, _⟩ := main _ hsub st hrun
    exact ⟨hInv.1, hInv.2.1, hSort⟩
  · intro st hrun
    rw [run_simulation] at hrun
    simp only [Option.bind_eq_bind, Option.bind_eq_some] at hrun
    obtain ⟨st1, h1, h2⟩ := hrun
    obtain ⟨hInv1, hSort1, hprov1⟩ := main _ (List.drop_sublist _ _) st1 h1
    split at h2
    · cases hl : frame.getLast? with
      | none =>
        rw [hl] at h2
        dsimp only at h2
        simp only [Option.pure_def, Option.some_inj] at h2
        subst h2
        exact ⟨hInv1.1, hInv1.2.1, hSort1⟩
      | some rl =>
        rw [hl] at h2
        dsimp only at h2
        cases hpl : rl.price with
        | none =>
          rw [hpl] at h2
          simp at h2
        | some pl =>
          rw [hpl] at h2
          simp only [Option.bind_eq_bind, Option.some_bind, Option.pure_def,
            Option.some_inj] at h2
          subst h2
          have hplpos : 0 < pl := hpos rl (List.mem_of_getLast?_eq_some hl) pl hpl
          have hInvF := final_sell_inv pl rl.datetime hP hplpos hInv1
          have hbound : trades_bound rl.datetime st1.sim := by
            intro t ht
            obtain ⟨r2, h2m, hdt⟩ := hprov1 t ht
            rw [hdt]
            exact datetime_le_getLast hasc hl r2 ((List.drop_sublist _ _).subset h2m)
          obtain ⟨hSortF, _, _⟩ :=
            appendsAt_sorted (final_sell_appendsAt P pl rl.datetime st1.sim) hSort1 hbound
          exact ⟨hInvF.1, hInvF.2.1, hSortF⟩
    · simp only [Option.pure_def, Option.some_inj] at h2
      subst h2
      exact ⟨hInv1.1, hInv1.2.1, hSort1⟩

/-- Witness for c4_invariants_amended: the flat one-row frame [c10row] with
default Params; no trade fires and the invariants hold of the final state. -/
theorem c4_invariants_amended_witness :
    0 ≤ (init_state Params.default).sim.current_cash ∧
    0 ≤ (init_state Params.default).sim.held ∧
    TradesSorted (init_state Params.default).sim :=
  (c4_invariants_amended Params.default 50 [c10row] (by decide)
      (by norm_num [c10row]) (by simp)).2
    (init_state Params.default) (by decide)

/-! The RSI pipeline of indicators.rs (calculate_rsi), over an input price
series (DataPoint closes: plain finite numbers).  Polars rolling_mean with the
default min_periods = window yields null whenever the window is incomplete or
contains a null; the quotient avg_gain/avg_loss is IEEE Float64 division, so a
zero denominator produces +inf (gain positive) or NaN (0/0), modelled by
F64. -/

/-- An IEEE double as produced by the rsi pipeline: a finite value (exact
rational model), an infinity, or NaN. -/
inductive F64 where
  | fin (q : ℚ)
  | posInf
  | negInf
  | nan
deriving DecidableEq

/-- IEEE negation. -/
def fneg : F64 → F64
  | F64.fin a => F64.fin (-a)
  | F64.posInf => F64.negInf
  | F64.negInf => F64.posInf
  | F64.nan => F64.nan

/-- IEEE addition (rounding ignored: finite values stay exact). -/
def fadd : F64 → F64 → F64
  | F64.nan, _ => F64.nan
  | _, F64.nan => F64.nan
  | F64.fin a, F64.fin b => F64.fin (a + b)
  | F64.posInf, F64.negInf => F64.nan
  | F64.negInf, F64.posInf => F64.nan
  | F64.posInf, _ => F64.posInf
  | _, F64.posInf => F64.posInf
  | F64.negInf, _ => F64.negInf
  | _, F64.negInf => F64.negInf

/-- IEEE subtraction. -/
def fsub (a b : F64) : F64 := fadd a (fneg b)

/-- IEEE division of two finite doubles (signed zero ignored: the pipeline
divides nonnegative rolling means). -/
def fdivQ (a b : ℚ) : F64 :=
  if b ≠ 0 then F64.fin (a / b)
  else if a > 0 then F64.posInf
  else if a < 0 then F64.negInf
  else F64.nan

/-- IEEE division. -/
def fdiv : F64 → F64 → F64
  | F64.nan, _ => F64.nan
  | _, F64.nan => F64.nan
  | F64.fin a, F64.fin b => fdivQ a b
  | F64.fin _, F64.posInf => F64.fin 0
  | F64.fin _, F64.negInf => F64.fin 0
  | F64.posInf, F64.fin b => if b ≥ 0 then F64.posInf else F64.negInf
  | F64.negInf, F64.fin b => if b ≥ 0 then F64.negInf else F64.posInf
  | _, _ => F64.nan

/-- delta = price - price.shift(1): null on row 0 (and out of range). -/
def delta_col (p : List ℚ) (i : ℕ) : Option ℚ :=
  if 1 ≤ i ∧ i < p.length then some (p.getD i 0 - p.getD (i-1) 0) else none

/-- gain = when(delta > 0).then(delta).otherwise(0); null propagates. -/
def gain_col (p : List ℚ) (i : ℕ) : Option ℚ :=
  (delta_col p i).map fun d => if d > 0 then d else 0

/-- loss = when(delta < 0).then(delta.abs()).otherwise(0); null propagates. -/
def loss_col (p : List ℚ) (i : ℕ) : Option ℚ :=
  (delta_col p i).map fun d => if d < 0 then |d| else 0

/-- Sum of a window of nullable entries: null if any entry is null. -/
def opt_sum : List (Option ℚ) → Option ℚ
  | [] => some 0
  | o :: t => o.bind fun x => (opt_sum t).bind fun s => some (x + s)

/-- The polars rolling window of size 14 ending at row i. -/
def win14 (c : ℕ → Option ℚ) (i : ℕ) : List (Option ℚ) :=
  (List.range 14).map fun k => c (i + k - 13)

/-- polars rolling_mean over window 14 with the default min_periods = 14:
null until the window is complete and fully non-null. -/
def rolling_mean14 (c : ℕ → Option ℚ) (i : ℕ) : Option ℚ :=
  if i < 13 then none else (opt_sum (win14 c i)).map fun s => s / 14

/-- avg_gain = gain.rolling_mean(14). -/
def avg_gain_col (p : List ℚ) (i : ℕ) : Option ℚ := rolling_mean14 (gain_col p) i

/-- avg_loss = loss.rolling_mean(14). -/
def avg_loss_col (p : List ℚ) (i : ℕ) : Option ℚ := rolling_mean14 (loss_col p) i

/-- rs = avg_gain / avg_loss (null-propagating, IEEE on values). -/
def rs_col (p : List ℚ) (i : ℕ) : Option F64 :=
  match avg_gain_col p i, avg_loss_col p i with
  | some g, some l => some (fdivQ g l)
  | _, _ => none

/-- rsi = 100 - 100/(1 + rs) (null-propagating, IEEE on values). -/
def rsi_col (p : List ℚ) (i : ℕ) : Option F64 :=
  (rs_col p i).map fun rs => fsub (F64.fin 100) (fdiv (F64.fin 100) (fadd (F64.fin 1) rs))

/-- The delta at row j, written directly. -/
def spec_delta (p : List ℚ) (j : ℕ) : ℚ := p.getD j 0 - p.getD (j-1) 0

/-- The claimed avg_gain: 14-window simple mean of max(delta, 0). -/
def spec_avg_gain (p : List ℚ) (i : ℕ) : ℚ :=
  (((List.range 14).map fun k => max (spec_delta p (i + k - 13)) 0).sum) / 14

/-- The claimed avg_loss: 14-window simple mean of max(-delta, 0). -/
def spec_avg_loss (p : List ℚ) (i : ℕ) : ℚ :=
  (((List.range 14).map fun k => max (-(spec_delta p (i + k - 13))) 0).sum) / 14

theorem opt_sum_some_map (l : List ℕ) (f : ℕ → ℚ) :
    opt_sum (l.map fun k => some (f k)) = some ((l.map f).sum) := by
  induction l with
  | nil => rfl
  | cons a t ih =>
    simp only [List.map_cons, opt_sum, Option.some_bind, ih, List.sum_cons]

theorem if_pos_eq_max (d : ℚ) : (if d > 0 then d else 0) = max d 0 := by
  rcases le_or_lt d 0 with h | h
  · rw [if_neg (not_lt.mpr h), max_eq_right h]
  · rw [if_pos h, max_eq_left h.le]

theorem if_abs_eq_max (d : ℚ) : (if d < 0 then |d| else 0) = max (-d) 0 := by
  rcases lt_or_le d 0 with h | h
  · rw [if_pos h, abs_of_neg h, max_eq_left (by linarith)]
  · rw [if_neg (not_lt.mpr h), max_eq_right (by linarith)]

theorem avg_gain_eq (p : List ℚ) (i : ℕ) (h14 : 14 ≤ i) (hN : i < p.length) :
    avg_gain_col p i = some (spec_avg_gain p i) := by
  unfold avg_gain_col rolling_mean14
  rw [if_neg (by omega)]
  have hw : win14 (gain_col p) i =
      (List.range 14).map fun k => some (max (spec_delta p (i + k - 13)) 0) := by
    unfold win14
    apply List.map_congr_left
    intro k hk
    rw [List.mem_range] at hk
    unfold gain_col delta_col
    rw [if_pos ⟨by omega, by omega⟩]
    rw [Option.map_some']
    rw [if_pos_eq_max]
    rfl
  rw [hw, opt_sum_some_map]
  rfl

theorem avg_loss_eq (p : List ℚ) (i : ℕ) (h14 : 14 ≤ i) (hN : i < p.length) :
    avg_loss_col p i = some (spec_avg_loss p i) := by
  unfold avg_loss_col rolling_mean14
  rw [if_neg (by omega)]
  have hw : win14 (loss_col p) i =
      (List.range 14).map fun k => some (max (-(spec_delta p (i + k - 13))) 0) := by
    unfold win14
    apply List.map_congr_left
    intro k hk
    rw [List.mem_range] at hk
    unfold loss_col delta_col
    rw [if_pos ⟨by omega, by omega⟩]
    rw [Option.map_some']
    rw [if_abs_eq_max]
    rfl
  rw [hw, opt_sum_some_map]
  rfl

theorem spec_avg_gain_nonneg (p : List ℚ) (i : ℕ) : 0 ≤ spec_avg_gain p i := by
  unfold spec_avg_gain
  apply div_nonneg _ (by norm_num)
  apply List.sum_nonneg
  intro x hx
  simp only [List.mem_map] at hx
  obtain ⟨k, _, rfl⟩ := hx
  exact le_max_right _ _

theorem spec_avg_loss_nonneg (p : List ℚ) (i : ℕ) : 0 ≤ spec_avg_loss p i := by
  unfold spec_avg_loss
  apply div_nonneg _ (by norm_num)
  apply List.sum_nonneg
  intro x hx
  simp only [List.mem_map] at hx
  obtain ⟨k, _, rfl⟩ := hx
  exact le_max_right _ _

theorem fadd_fin (a b : ℚ) : fadd (F64.fin a) (F64.fin b) = F64.fin (a + b) := rfl

theorem fsub_fin (a b : ℚ) : fsub (F64.fin a) (F64.fin b) = F64.fin (a - b) := by
  show F64.fin (a + -b) = F64.fin (a - b)
  rw [← sub_eq_add_neg]

theorem fdiv_fin {b : ℚ} (a : ℚ) (h : b ≠ 0) :
    fdiv (F64.fin a) (F64.fin b) = F64.fin (a / b) := by
  show fdivQ a b = F64.fin (a / b)
  unfold fdivQ
  rw [if_pos h]

/-- Claim C6 counterexample: on a constant price series (15 rows of 100) the
row-14 window has avg_gain = avg_loss = 0, and the rsi entry is the non-null
NaN produced by the IEEE quotient 0.0/0.0 - not null as claimed. -/
theorem c6_rsi_flat_is_nan_not_null :
    rsi_col (List.replicate 15 (100:ℚ)) 14 = some F64.nan ∧
    rsi_col (List.replicate 15 (100:ℚ)) 14 ≠ none := by
  exact ⟨by decide, by decide⟩

/-- Claim C6 (amended): for every row with at least 14 prior deltas, with
G/L the 14-window simple means of max(delta,0) and max(-delta,0): when L ≠ 0
the rsi equals 100 - 100/(1 + G/L); when L = 0 and G > 0 the rsi is 100 (via
rs = +inf); when G = L = 0 the rsi is the non-null floating NaN (0/0), not
null. -/
theorem c6_rsi_formula_amended (p : List ℚ) (i : ℕ)
    (h14 : 14 ≤ i) (hN : i < p.length) :
    (spec_avg_loss p i ≠ 0 →
      rsi_col p i =
        some (F64.fin (100 - 100 / (1 + spec_avg_gain p i / spec_avg_loss p i)))) ∧
    (spec_avg_loss p i = 0 → spec_avg_gain p i ≠ 0 →
      rsi_col p i = some (F64.fin 100)) ∧
    (spec_avg_loss p i = 0 → spec_avg_gain p i = 0 →
      rsi_col p i = some F64.nan) := by
  have hg := avg_gain_eq p i h14 hN
  have hl := avg_loss_eq p i h14 hN
  have hg0 := spec_avg_gain_nonneg p i
  have hl0 := spec_avg_loss_nonneg p i
  have hrs : rs_col p i = some (fdivQ (spec_avg_gain p i) (spec_avg_loss p i)) := by
    unfold rs_col
    rw [hg, hl]
  refine ⟨?_, ?_, ?_⟩
  · intro hne
    unfold rsi_col
    rw [hrs, Option.map_some']
    have hdvq : fdivQ (spec_avg_gain p i) (spec_avg_loss p i) =
        F64.fin (spec_avg_gain p i / spec_avg_loss p i) := by
      unfold fdivQ
      rw [if_pos hne]
    rw [hdvq, fadd_fin]
    have hpos : (0:ℚ) < 1 + spec_avg_gain p i / spec_avg_loss p i := by
      have := div_nonneg hg0 hl0
      linarith
    rw [fdiv_fin _ (ne_of_gt hpos), fsub_fin]
  · intro hzero hne
    have hgpos : 0 < spec_avg_gain p i := lt_of_le_of_ne hg0 (Ne.symm hne)
    unfold rsi_col
    rw [hrs, Option.map_some']
    have hdvq : fdivQ (spec_avg_gain p i) (spec_avg_loss p i) = F64.posInf := by
      unfold fdivQ
      rw [if_neg (by simp [hzero]), if_pos hgpos]
    rw [hdvq]
    show some (fsub (F64.fin 100) (fdiv (F64.fin 100) F64.posInf)) = _
    show some (fsub (F64.fin 100) (F64.fin 0)) = _
    rw [fsub_fin]
    norm_num
  · intro hzero hgzero
    unfold rsi_col
    rw [hrs, Option.map_some']
    have hdvq : fdivQ (spec_avg_gain p i) (spec_avg_loss p i) = F64.nan := by
      unfold fdivQ
      rw [if_neg (by simp [hzero]), if_neg (by simp [hgzero]), if_neg (by simp [hgzero])]
    rw [hdvq]
    rfl

/-- A 15-row alternating series 1,2,1,2,...: seven +1 deltas and seven -1
deltas in the row-14 window, so G = L = 1/2 and rsi = 50. -/
def c6wprices : List ℚ := [1, 2, 1, 2, 1, 2, 1, 2, 1, 2, 1, 2, 1, 2, 1]

/-- Witness for c6_rsi_formula_amended at the alternating series, row 14. -/
theorem c6_rsi_formula_amended_witness :
    rsi_col c6wprices 14 =
      some (F64.fin (100 - 100 /
        (1 + spec_avg_gain c6wprices 14 / spec_avg_loss c6wprices 14))) :=
  (c6_rsi_formula_amended c6wprices 14 (by decide) (by decide)).1 (by decide)

/-! Rolling statistics of indicators.rs: rolling_mean (the moving averages)
and rolling_std (used by calculate_bollinger_bands).  polars rolling_std with
default fn_params uses ddof = 1 (the sample standard deviation, divisor
n - 1), and rolling aggregations have min_periods = window_size.  Square
roots are modelled over the reals. -/

/-- The rolling window of size n ending at row i (rows i+1-n .. i). -/
def rwin (p : List ℚ) (n i : ℕ) : List ℚ := (p.drop (i + 1 - n)).take n

/-- polars rolling_mean over window n: null until i ≥ n-1 (and past the
end). -/
def rolling_mean_col (p : List ℚ) (n i : ℕ) : Option ℚ :=
  if i + 1 < n ∨ p.length ≤ i then none else some ((rwin p n i).sum / n)

/-- The ma25 column. -/
def ma25_col (p : List ℚ) (i : ℕ) : Option ℚ := rolling_mean_col p 25 i

/-- The square of polars rolling_std(window 20) with the default ddof = 1:
the rolling sample variance, divisor 19. -/
def rolling_var_ddof1 (p : List ℚ) (i : ℕ) : Option ℚ :=
  if i + 1 < 20 ∨ p.length ≤ i then none
  else some ((((rwin p 20 i).map fun x => (x - (rwin p 20 i).sum / 20)^2).sum) / 19)

/-- The std20 column: rolling_std(window 20), i.e. the square root of the
ddof-1 rolling variance. -/
noncomputable def std20_col (p : List ℚ) (i : ℕ) : Option ℝ :=
  (rolling_var_ddof1 p i).map fun q : ℚ => Real.sqrt (q : ℝ)

/-- upper_band = ma25 + 2 * std20 (null-propagating). -/
noncomputable def upper_band_col (p : List ℚ) (i : ℕ) : Option ℝ :=
  match ma25_col p i, std20_col p i with
  | some m, some s => some ((m : ℝ) + 2 * s)
  | _, _ => none

/-- lower_band = ma25 - 2 * std20 (null-propagating). -/
noncomputable def lower_band_col (p : List ℚ) (i : ℕ) : Option ℝ :=
  match ma25_col p i, std20_col p i with
  | some m, some s => some ((m : ℝ) - 2 * s)
  | _, _ => none

/-- Modelled from the claim's words: the rolling POPULATION variance over a
window of 20 rows, divisor 20. -/
def rolling_var_pop (p : List ℚ) (i : ℕ) : Option ℚ :=
  if i + 1 < 20 ∨ p.length ≤ i then none
  else some ((((rwin p 20 i).map fun x => (x - (rwin p 20 i).sum / 20)^2).sum) / 20)

/-- Modelled from the claim's words: the rolling population standard
deviation (divisor 20). -/
noncomputable def pop_std_spec (p : List ℚ) (i : ℕ) : Option ℝ :=
  (rolling_var_pop p i).map fun q : ℚ => Real.sqrt (q : ℝ)

/-- Nineteen rows of 10 and one of 30: mean 11, squared deviations sum 380,
so the sample variance is 20 and the population variance 19. -/
def c7cex : List ℚ := List.replicate 19 (10:ℚ) ++ [30]

/-- Claim C7 counterexample: at row 19 of c7cex the code's std20 is
sqrt(380/19) = sqrt(20) while the claimed population standard deviation is
sqrt(380/20) = sqrt(19); they differ, refuting "divisor 20, not 19". -/
theorem c7_std20_not_population :
    std20_col c7cex 19 ≠ pop_std_spec c7cex 19 := by
  have h1 : rolling_var_ddof1 c7cex 19 = some 20 := by decide
  have h2 : rolling_var_pop c7cex 19 = some 19 := by decide
  intro h
  unfold std20_col pop_std_spec at h
  rw [h1, h2] at h
  simp only [Option.map_some', Option.some_inj] at h
  rw [Real.sqrt_inj (by positivity) (by positivity)] at h
  have : ((20:ℚ):ℝ) = ((19:ℚ):ℝ) := h
  norm_num at this

/-- Claim C7 (amended): std20 is the rolling SAMPLE standard deviation of
price over a window of 20 rows (divisor 19, polars' default ddof = 1, not
20), and upper_band / lower_band equal ma25 plus / minus 2·std20. -/
theorem c7_std20_and_bands_amended (p : List ℚ) (i : ℕ)
    (h24 : 24 ≤ i) (hN : i < p.length) :
    ∃ m v, ma25_col p i = some m ∧ m = (rwin p 25 i).sum / 25 ∧
      rolling_var_ddof1 p i = some v ∧
      v = (((rwin p 20 i).map fun x => (x - (rwin p 20 i).sum / 20)^2).sum) / 19 ∧
      std20_col p i = some (Real.sqrt (v : ℝ)) ∧
      upper_band_col p i = some ((m : ℝ) + 2 * Real.sqrt (v : ℝ)) ∧
      lower_band_col p i = some ((m : ℝ) - 2 * Real.sqrt (v : ℝ)) := by
  have hm : ma25_col p i = some ((rwin p 25 i).sum / 25) := by
    unfold ma25_col rolling_mean_col
    rw [if_neg (by omega)]
    norm_num
  have hv : rolling_var_ddof1 p i =
      some ((((rwin p 20 i).map fun x => (x - (rwin p 20 i).sum / 20)^2).sum) / 19) := by
    unfold rolling_var_ddof1
    rw [if_neg (by omega)]
  have hs : std20_col p i =
      some (Real.sqrt
        (((((rwin p 20 i).map fun x => (x - (rwin p 20 i).sum / 20)^2).sum) / 19 : ℚ) : ℝ)) := by
    unfold std20_col
    rw [hv, Option.map_some']
  refine ⟨_, _, hm, rfl, hv, rfl, hs, ?_, ?_⟩
  · unfold upper_band_col
    rw [hm, hs]
  · unfold lower_band_col
    rw [hm, hs]

/-- Witness for c7_std20_and_bands_amended: 25 constant rows, row 24. -/
theorem c7_std20_and_bands_amended_witness :
    ∃ m v, ma25_col (List.replicate 25 (10:ℚ)) 24 = some m ∧
      m = (rwin (List.replicate 25 (10:ℚ)) 25 24).sum / 25 ∧
      rolling_var_ddof1 (List.replicate 25 (10:ℚ)) 24 = some v ∧
      v = (((rwin (List.replicate 25 (10:ℚ)) 20 24).map
        fun x => (x - (rwin (List.replicate 25 (10:ℚ)) 20 24).sum / 20)^2).sum) / 19 ∧
      std20_col (List.replicate 25 (10:ℚ)) 24 = some (Real.sqrt (v : ℝ)) ∧
      upper_band_col (List.replicate 25 (10:ℚ)) 24 =
        some ((m : ℝ) + 2 * Real.sqrt (v : ℝ)) ∧
      lower_band_col (List.replicate 25 (10:ℚ)) 24 =
        some ((m : ℝ) - 2 * Real.sqrt (v : ℝ)) :=
  c7_std20_and_bands_amended (List.replicate 25 (10:ℚ)) 24 (by decide) (by decide)

/-! ### C8: correlation matrix (engine.rs calculate_correlation_matrix,
pearson_correlation)

The series are built from `Vec<f64>` columns, so no entry is null: `get`
always returns `Some` and the null-skipping loop of pearson_correlation
visits exactly the pairs of `s1.zip s2`.  `DataFrame::new` validates the
columns before any correlation is computed: duplicate column names are a
Duplicate error and unequal column heights a ShapeMismatch error (the claim
only concerns inputs passing both checks, so the order of the two checks is
unobservable here). -/

inductive PolarsErrKind where
  | shapeMismatch
  | computeError
  | duplicate
deriving DecidableEq

/-- `ChunkedArray::mean` of a null-free Float64 series: sum / len.  (The
`unwrap_or(0.0)` in the source only fires for the empty series, which the
caller has already rejected.) -/
noncomputable def list_mean (xs : List ℝ) : ℝ := xs.sum / (xs.length : ℝ)

open Classical in
/-- TradingEngine::pearson_correlation (engine.rs:711-765). -/
noncomputable def pearson_correlation (s1 s2 : List ℝ) :
    Except PolarsErrKind ℝ :=
  if s1.length ≠ s2.length then Except.error PolarsErrKind.shapeMismatch
  else if s1.length = 0 then Except.error PolarsErrKind.computeError
  else
    let mean1 := list_mean s1
    let mean2 := list_mean s2
    let numerator := ((s1.zip s2).map fun pr =>
      (pr.1 - mean1) * (pr.2 - mean2)).sum
    let denom1 := ((s1.zip s2).map fun pr =>
      (pr.1 - mean1) * (pr.1 - mean1)).sum
    let denom2 := ((s1.zip s2).map fun pr =>
      (pr.2 - mean2) * (pr.2 - mean2)).sum
    if denom1 = 0 ∨ denom2 = 0 then Except.ok 0
    else
      let correlation := numerator / (Real.sqrt denom1 * Real.sqrt denom2)
      if correlation < -1 ∨ correlation > 1 then
        Except.ok (min 1 (max (-1) correlation))
      else Except.ok correlation

/-- The i-th price series of the input slice (out of range never happens at
the use sites, which index by `List.range price_data.length`). -/
def series_at (data : List (String × List ℝ)) (i : ℕ) : List ℝ :=
  (data.getD i ("", [])).2

/-- TradingEngine::calculate_correlation_matrix (engine.rs:671-709), with the
matrix as its rows `corr_matrix[i]`.  The two leading checks model
`DataFrame::new`'s validation of the assembled columns. -/
noncomputable def calculate_correlation_matrix
    (price_data : List (String × List ℝ)) :
    Except PolarsErrKind (List (List ℝ)) :=
  if ¬ (price_data.map Prod.fst).Nodup then
    Except.error PolarsErrKind.duplicate
  else if ¬ ∀ pr ∈ price_data,
      pr.2.length = (price_data.headD ("", [])).2.length then
    Except.error PolarsErrKind.shapeMismatch
  else
    (List.range price_data.length).mapM fun i =>
      (List.range price_data.length).mapM fun j =>
        if i = j then Except.ok 1
        else pearson_correlation (series_at price_data i)
          (series_at price_data j)

open Classical in
/-- The value pearson_correlation returns on the success path, as a function
of the covariance-style numerator and the two squared-deviation sums. -/
noncomputable def corrExpr (num d1 d2 : ℝ) : ℝ :=
  if d1 = 0 ∨ d2 = 0 then 0
  else if num / (Real.sqrt d1 * Real.sqrt d2) < -1 ∨
      num / (Real.sqrt d1 * Real.sqrt d2) > 1 then
    min 1 (max (-1) (num / (Real.sqrt d1 * Real.sqrt d2)))
  else num / (Real.sqrt d1 * Real.sqrt d2)

/-- The series has zero variance: its sum of squared deviations from the mean
vanishes. -/
def zero_variance (xs : List ℝ) : Prop :=
  ((xs.map fun v => (v - list_mean xs) * (v - list_mean xs)).sum) = 0

/-- Entry (i, j) of the matrix as read back by the claim: row i, column j,
defaulting to 0 out of range. -/
def mat_get (M : List (List ℝ)) (i j : ℕ) : ℝ := (M.getD i []).getD j 0

/-- The off-diagonal matrix value in closed form. -/
noncomputable def pearson_entry (data : List (String × List ℝ)) (i j : ℕ) :
    ℝ :=
  corrExpr
    (((series_at data i).zip (series_at data j)).map fun pr =>
      (pr.1 - list_mean (series_at data i)) *
        (pr.2 - list_mean (series_at data j))).sum
    ((series_at data i).map fun v =>
      (v - list_mean (series_at data i)) *
        (v - list_mean (series_at data i))).sum
    ((series_at data j).map fun v =>
      (v - list_mean (series_at data j)) *
        (v - list_mean (series_at data j))).sum

/-- The full matrix value, diagonal included. -/
noncomputable def matrix_val (data : List (String × List ℝ)) (i j : ℕ) : ℝ :=
  if i = j then 1 else pearson_entry data i j

/-- mapM over Except succeeds pointwise. -/
theorem exceptMapM_ok {α β ε : Type} (l : List α) (f : α → Except ε β)
    (g : α → β) (h : ∀ a ∈ l, f a = Except.ok (g a)) :
    l.mapM f = Except.ok (l.map g) := by
  induction l with
  | nil => rfl
  | cons a t ih =>
    rw [List.mapM_cons, h a (List.mem_cons_self a t),
      ih fun x hx => h x (List.mem_cons_of_mem _ hx), List.map_cons]
    rfl

/-- getD on a map over a range, in range. -/
theorem range_map_getD {α : Type} (f : ℕ → α) (K i : ℕ) (d : α)
    (h : i < K) : ((List.range K).map f).getD i d = f i := by
  have hl : i < ((List.range K).map f).length := by simpa using h
  rw [List.getD_eq_getElem?_getD, List.getElem?_eq_getElem hl]
  simp

/-- Swapping the two series transposes the covariance-style sum. -/
theorem zipCov_swap (s1 s2 : List ℝ) (m1 m2 : ℝ) :
    ((s2.zip s1).map fun pr => (pr.1 - m2) * (pr.2 - m1)).sum =
    ((s1.zip s2).map fun pr => (pr.1 - m1) * (pr.2 - m2)).sum := by
  rw [← List.zip_swap s1 s2, List.map_map]
  congr 1
  apply List.map_congr_left
  intro pr _
  dsimp [Function.comp, Prod.swap]
  ring

/-- On equal-length series the first squared-deviation sum over the zip
collapses to a sum over the first series alone. -/
theorem zipVar_fst (s1 s2 : List ℝ) (m : ℝ)
    (hlen : s1.length = s2.length) :
    ((s1.zip s2).map fun pr => (pr.1 - m) * (pr.1 - m)).sum =
    (s1.map fun v => (v - m) * (v - m)).sum := by
  have h1 : (s1.zip s2).map Prod.fst = s1 :=
    List.map_fst_zip s1 s2 (le_of_eq hlen)
  conv_rhs => rw [← h1, List.map_map]
  rfl

/-- Likewise for the second series. -/
theorem zipVar_snd (s1 s2 : List ℝ) (m : ℝ)
    (hlen : s1.length = s2.length) :
    ((s1.zip s2).map fun pr => (pr.2 - m) * (pr.2 - m)).sum =
    (s2.map fun v => (v - m) * (v - m)).sum := by
  have h2 : (s1.zip s2).map Prod.snd = s2 :=
    List.map_snd_zip s1 s2 (ge_of_eq hlen)
  conv_rhs => rw [← h2, List.map_map]
  rfl

/-- On equal-length nonempty series pearson_correlation succeeds with the
closed-form value. -/
theorem pearson_eq_corrExpr (s1 s2 : List ℝ)
    (hlen : s1.length = s2.length) (hne : s1.length ≠ 0) :
    pearson_correlation s1 s2 = Except.ok (corrExpr
      (((s1.zip s2).map fun pr =>
        (pr.1 - list_mean s1) * (pr.2 - list_mean s2)).sum)
      ((s1.map fun v => (v - list_mean s1) * (v - list_mean s1)).sum)
      ((s2.map fun v => (v - list_mean s2) * (v - list_mean s2)).sum)) := by
  unfold pearson_correlation
  rw [if_neg (not_not_intro hlen), if_neg hne]
  dsimp only
  rw [zipVar_fst s1 s2 (list_mean s1) hlen,
    zipVar_snd s1 s2 (list_mean s2) hlen]
  unfold corrExpr
  split_ifs <;> rfl

/-- corrExpr is symmetric in its two deviation sums. -/
theorem corrExpr_comm (num d1 d2 : ℝ) :
    corrExpr num d1 d2 = corrExpr num d2 d1 := by
  unfold corrExpr
  rw [mul_comm (Real.sqrt d1) (Real.sqrt d2)]
  by_cases h : d1 = 0 ∨ d2 = 0
  · rw [if_pos h, if_pos h.symm]
  · rw [if_neg h, if_neg fun hc : d2 = 0 ∨ d1 = 0 => h hc.symm]

/-- corrExpr always lands in [-1, 1]. -/
theorem corrExpr_mem_Icc (num d1 d2 : ℝ) :
    -1 ≤ corrExpr num d1 d2 ∧ corrExpr num d1 d2 ≤ 1 := by
  unfold corrExpr
  split_ifs with h1 h2
  · norm_num
  · exact ⟨le_min (by norm_num) (le_max_left _ _), min_le_left _ _⟩
  · push_neg at h2
    exact ⟨h2.1, h2.2⟩

/-- corrExpr vanishes when either deviation sum vanishes. -/
theorem corrExpr_zero (num d1 d2 : ℝ) (h : d1 = 0 ∨ d2 = 0) :
    corrExpr num d1 d2 = 0 := by
  unfold corrExpr
  rw [if_pos h]

/-- The off-diagonal value is symmetric. -/
theorem pearson_entry_symm (data : List (String × List ℝ)) (i j : ℕ) :
    pearson_entry data j i = pearson_entry data i j := by
  unfold pearson_entry
  rw [zipCov_swap (series_at data i) (series_at data j)
    (list_mean (series_at data i)) (list_mean (series_at data j))]
  exact corrExpr_comm _ _ _

/-- The matrix value is symmetric. -/
theorem matrix_val_symm (data : List (String × List ℝ)) (i j : ℕ) :
    matrix_val data i j = matrix_val data j i := by
  unfold matrix_val
  by_cases hij : i = j
  · subst hij
    rfl
  · rw [if_neg hij, if_neg (Ne.symm hij)]
    exact (pearson_entry_symm data i j).symm

/-- C8: for every set of K equal-length nonempty finite price series with
distinct symbols, calculate_correlation_matrix succeeds with a K-by-K matrix
that is symmetric, has diagonal entries exactly 1, has every entry in
[-1, 1], and has entry 0 at every off-diagonal pair where either series has
zero variance (on the diagonal the source writes 1.0 without calling
pearson_correlation, so a zero-variance series still gets diagonal 1); and
pearson_correlation of the empty series is a ComputeError. -/
theorem c8_correlation_matrix_props (price_data : List (String × List ℝ))
    (n : ℕ) (hn : 0 < n) (hnd : (price_data.map Prod.fst).Nodup)
    (hlen : ∀ pr ∈ price_data, pr.2.length = n) :
    (∃ M : List (List ℝ),
      calculate_correlation_matrix price_data = Except.ok M ∧
      M.length = price_data.length ∧
      (∀ row ∈ M, row.length = price_data.length) ∧
      (∀ i j, i < price_data.length → j < price_data.length →
        mat_get M i j = mat_get M j i) ∧
      (∀ i, i < price_data.length → mat_get M i i = 1) ∧
      (∀ i j, i < price_data.length → j < price_data.length →
        -1 ≤ mat_get M i j ∧ mat_get M i j ≤ 1) ∧
      (∀ i j, i < price_data.length → j < price_data.length → i ≠ j →
        (zero_variance (series_at price_data i) ∨
          zero_variance (series_at price_data j)) →
        mat_get M i j = 0)) ∧
    pearson_correlation ([] : List ℝ) ([] : List ℝ) =
      Except.error PolarsErrKind.computeError := by
  have hsl : ∀ i, i < price_data.length →
      (series_at price_data i).length = n := by
    intro i hi
    unfold series_at
    have hgd : price_data.getD i ("", []) = price_data[i] := by
      rw [List.getD_eq_getElem?_getD, List.getElem?_eq_getElem hi,
        Option.getD_some]
    rw [hgd]
    exact hlen _ (List.getElem_mem hi)
  refine ⟨⟨(List.range price_data.length).map fun i =>
    (List.range price_data.length).map (matrix_val price_data i),
    ?_, ?_, ?_, ?_, ?_, ?_, ?_⟩, ?_⟩
  · have hck : ∀ pr ∈ price_data,
        pr.2.length = (price_data.headD ("", [])).2.length := by
      intro pr hpr
      rw [hlen pr hpr]
      cases price_data with
      | nil => exact absurd hpr (List.not_mem_nil pr)
      | cons a t =>
        simp only [List.headD_cons]
        exact (hlen a (List.mem_cons_self a t)).symm
    unfold calculate_correlation_matrix
    rw [if_neg (not_not_intro hnd), if_neg (not_not_intro hck)]
    apply exceptMapM_ok
    intro i hi
    apply exceptMapM_ok
    intro j hj
    by_cases hij : i = j
    · subst hij
      rw [if_pos rfl]
      unfold matrix_val
      rw [if_pos rfl]
    · rw [if_neg hij]
      have hi' : i < price_data.length := List.mem_range.mp hi
      have hj' : j < price_data.length := List.mem_range.mp hj
      rw [pearson_eq_corrExpr _ _ (by rw [hsl i hi', hsl j hj'])
        (by rw [hsl i hi']; omega)]
      unfold matrix_val
      rw [if_neg hij]
      rfl
  · simp
  · intro row hrow
    rcases List.mem_map.mp hrow with ⟨i, _, hrw⟩
    rw [← hrw]
    simp
  · intro i j hi hj
    unfold mat_get
    rw [range_map_getD _ _ _ _ hi, range_map_getD _ _ _ _ hj,
      range_map_getD _ _ _ _ hj, range_map_getD _ _ _ _ hi]
    exact matrix_val_symm price_data i j
  · intro i hi
    unfold mat_get
    rw [range_map_getD _ _ _ _ hi, range_map_getD _ _ _ _ hi]
    unfold matrix_val
    rw [if_pos rfl]
  · intro i j hi hj
    unfold mat_get
    rw [range_map_getD _ _ _ _ hi, range_map_getD _ _ _ _ hj]
    by_cases hij : i = j
    · subst hij
      unfold matrix_val
      rw [if_pos rfl]
      norm_num
    · unfold matrix_val
      rw [if_neg hij]
      unfold pearson_entry
      exact corrExpr_mem_Icc _ _ _
  · intro i j hi hj hij hv
    unfold mat_get
    rw [range_map_getD _ _ _ _ hi, range_map_getD _ _ _ _ hj]
    unfold matrix_val
    rw [if_neg hij]
    unfold pearson_entry
    exact corrExpr_zero _ _ _ (hv.imp (fun h => h) (fun h => h))
  · rfl

/-- Concrete input for the C8 witness. -/
def c8data : List (String × List ℝ) := [("a", [1, 2]), ("b", [2, 1])]

/-- Witness for c8_correlation_matrix_props at two length-2 series. -/
theorem c8_correlation_matrix_props_witness :
    (∃ M : List (List ℝ),
      calculate_correlation_matrix c8data = Except.ok M ∧
      M.length = c8data.length ∧
      (∀ row ∈ M, row.length = c8data.length) ∧
      (∀ i j, i < c8data.length → j < c8data.length →
        mat_get M i j = mat_get M j i) ∧
      (∀ i, i < c8data.length → mat_get M i i = 1) ∧
      (∀ i j, i < c8data.length → j < c8data.length →
        -1 ≤ mat_get M i j ∧ mat_get M i j ≤ 1) ∧
      (∀ i j, i < c8data.length → j < c8data.length → i ≠ j →
        (zero_variance (series_at c8data i) ∨
          zero_variance (series_at c8data j)) →
        mat_get M i j = 0)) ∧
    pearson_correlation ([] : List ℝ) ([] : List ℝ) =
      Except.error PolarsErrKind.computeError :=
  c8_correlation_matrix_props c8data 2 (by norm_num) (by decide)
    (by intro pr hpr; fin_cases hpr <;> rfl)

/-! ### C9: compare_assets_performance is a stable descending sort by roi,
over the per-asset simulations run with default Params and sentiment 50. -/

/-- insert_roi permutes with a plain cons. -/
theorem insert_roi_perm (x : PortfolioSimulation)
    (l : List PortfolioSimulation) : (insert_roi x l).Perm (x :: l) := by
  induction l with
  | nil => exact List.Perm.refl _
  | cons y ys ih =>
    unfold insert_roi
    split
    · exact List.Perm.refl _
    · exact (ih.cons y).trans (List.Perm.swap x y ys)

/-- insert_roi keeps descending sortedness. -/
theorem insert_roi_sorted (x : PortfolioSimulation)
    (l : List PortfolioSimulation)
    (hl : l.Pairwise fun a b => b.roi ≤ a.roi) :
    (insert_roi x l).Pairwise fun a b => b.roi ≤ a.roi := by
  induction l with
  | nil => simp [insert_roi]
  | cons y ys ih =>
    rw [List.pairwise_cons] at hl
    unfold insert_roi
    split
    next h =>
      rw [List.pairwise_cons]
      refine ⟨?_, List.pairwise_cons.mpr hl⟩
      intro z hz
      rcases List.mem_cons.mp hz with hz | hz
      · subst hz
        exact h
      · exact le_trans (hl.1 z hz) h
    next h =>
      rw [List.pairwise_cons]
      refine ⟨?_, ih hl.2⟩
      intro z hz
      rcases List.mem_cons.mp ((insert_roi_perm x ys).mem_iff.mp hz) with
        hz | hz
      · subst hz
        exact le_of_lt (lt_of_not_le h)
      · exact hl.1 z hz

/-- Filtering at a fixed roi value commutes with insert_roi: the inserted
element lands in front of the ties exactly when its roi matches. -/
theorem insert_roi_filter (x : PortfolioSimulation)
    (l : List PortfolioSimulation) (v : ℚ) :
    (insert_roi x l).filter (fun y => decide (y.roi = v)) =
      (if x.roi = v then
        x :: l.filter (fun y => decide (y.roi = v))
       else l.filter (fun y => decide (y.roi = v))) := by
  induction l with
  | nil =>
    unfold insert_roi
    by_cases hv : x.roi = v
    · rw [if_pos hv]
      simp [List.filter_cons, hv]
    · rw [if_neg hv]
      simp [List.filter_cons, hv]
  | cons y ys ih =>
    unfold insert_roi
    split
    next h =>
      by_cases hv : x.roi = v
      · rw [if_pos hv]
        simp [List.filter_cons, hv]
      · rw [if_neg hv]
        simp [List.filter_cons, hv]
    next h =>
      by_cases hv : x.roi = v
      · rw [if_pos hv]
        have hyv : ¬ y.roi = v := fun hyv => h (le_of_eq (hyv.trans hv.symm))
        simp [List.filter_cons, hyv, ih, hv]
      · rw [if_neg hv]
        simp [List.filter_cons, ih, hv]

/-- sort_by_roi permutes its input. -/
theorem sort_by_roi_perm (l : List PortfolioSimulation) :
    (sort_by_roi l).Perm l := by
  induction l with
  | nil => exact List.Perm.refl _
  | cons a t ih =>
    exact (insert_roi_perm a (sort_by_roi t)).trans (ih.cons a)

/-- sort_by_roi sorts descending by roi. -/
theorem sort_by_roi_sorted (l : List PortfolioSimulation) :
    (sort_by_roi l).Pairwise fun a b => b.roi ≤ a.roi := by
  induction l with
  | nil => simp [sort_by_roi]
  | cons a t ih => exact insert_roi_sorted a (sort_by_roi t) ih

/-- sort_by_roi is stable: filtering at any fixed roi value returns the ties
in input order. -/
theorem sort_by_roi_filter (l : List PortfolioSimulation) (v : ℚ) :
    (sort_by_roi l).filter (fun y => decide (y.roi = v)) =
      l.filter (fun y => decide (y.roi = v)) := by
  induction l with
  | nil => rfl
  | cons a t ih =>
    show (insert_roi a (sort_by_roi t)).filter _ = _
    rw [insert_roi_filter a (sort_by_roi t) v, ih]
    by_cases hv : a.roi = v
    · simp [List.filter_cons, hv]
    · simp [List.filter_cons, hv]

/-- C9: whenever the per-asset simulations (fresh engine per asset, default
Params, sentiment 50) succeed with the list sims in input order, the list
compare_assets_performance returns is a permutation of sims, sorted by roi
in descending order, and stable: at every fixed roi value, filtering keeps
the ties exactly in input order. -/
theorem c9_compare_assets_stable_sort (assets : List (String × List Row))
    (sims res : List PortfolioSimulation)
    (hsims : asset_simulations assets = some sims)
    (hres : compare_assets_performance assets = some res) :
    res.Perm sims ∧
    res.Pairwise (fun a b => b.roi ≤ a.roi) ∧
    ∀ v : ℚ, res.filter (fun x => decide (x.roi = v)) =
      sims.filter (fun x => decide (x.roi = v)) := by
  unfold compare_assets_performance at hres
  rw [hsims, Option.map_some'] at hres
  injection hres with hres
  subst hres
  exact ⟨sort_by_roi_perm sims, sort_by_roi_sorted sims,
    fun v => sort_by_roi_filter sims v⟩

/-- Two one-row flat assets: both simulations do nothing and tie at roi 0. -/
def c9assets : List (String × List Row) := [("A", [c10row]), ("B", [c10row])]

/-- Expected simulation result for asset A. -/
def c9simA : PortfolioSimulation :=
  { symbol := "A", roi := 0, final_value := 10000, num_trades := 0 }

/-- Expected simulation result for asset B. -/
def c9simB : PortfolioSimulation :=
  { symbol := "B", roi := 0, final_value := 10000, num_trades := 0 }

/-- Witness for c9_compare_assets_stable_sort: the two flat assets tie at
roi 0 and come back in input order. -/
theorem c9_compare_assets_stable_sort_witness :
    [c9simA, c9simB].Perm [c9simA, c9simB] ∧
    List.Pairwise (fun a b => b.roi ≤ a.roi) [c9simA, c9simB] ∧
    [c9simA, c9simB].filter (fun x => decide (x.roi = 0)) =
      [c9simA, c9simB].filter (fun x => decide (x.roi = 0)) := by
  have h := c9_compare_assets_stable_sort c9assets [c9simA, c9simB]
    [c9simA, c9simB] (by decide) (by decide)
  exact ⟨h.1, h.2.1, h.2.2 0⟩
